import Mathlib

/-!
weather-server-javascript: the Feishu document retrieval core.

A shallow embedding of `src/index.mjs` (the `get-feishu-doc` tool handler),
`src/services/feishu.mjs` (`FeishuService`) and `src/config/index.mjs`.

Modelling conventions.
* A JavaScript string is a list of characters (`Str`).  The two regular
  expressions of the handler have no `u` flag and use only literals and negated
  ASCII classes, so matching per character and per UTF-16 code unit agree.
  `maskApiKey`, which measures and cuts its argument by position, is embedded
  over the UTF-16 code units of the key (`JsString`).
* `String.prototype.match` with a non-global regular expression is the
  backtracking matcher `Regex.exec`: leftmost start position, ordered
  alternation, greedy quantifiers, numbered capture groups.
* A remote SDK call either throws (`Except.error`) or returns a response
  (`Except.ok`) with a status `code`, a `msg` and a payload.  The remote is a
  deterministic oracle; every call issued is recorded, in order, in a call log.
* An `async` function is a `Run`: the calls it issued and either the value it
  resolved to or the error it rejected with.
-/

namespace WeatherServer

/-- JavaScript strings. -/
abbrev Str := List Char

/-! ## Regular expressions (the fragment the handler uses) -/

/-- Regular-expression syntax: literals, ordered alternation, concatenation,
greedy `[^...]*` and `[^...]+` over a negated character class, and numbered
capture groups. -/
inductive Regex where
  | lit (cs : Str)
  | alt (a b : Regex)
  | seq (a b : Regex)
  | starNot (cs : Str)
  | plusNot (cs : Str)
  | group (n : Nat) (r : Regex)

/-- Capture store: group number and captured text, most recent first. -/
abbrev Captures := List (Nat × Str)

/-- The text a sub-match consumed: what `s` has in front of the remainder `rest`. -/
def consumed (s rest : Str) : Str := s.take (s.length - rest.length)

/-- Remove the literal `cs` from the front of `s`, if it is there. -/
def dropLit : Str → Str → Option Str
  | [], s => some s
  | _ :: _, [] => none
  | c :: cs, d :: s => if c = d then dropLit cs s else none

/-- Greedy `[^cs]*`: take as many characters outside `cs` as possible, and give
characters back one at a time while the continuation `k` fails. -/
def starNotRun {β : Type} (cs : Str) : Str → (Str → Option β) → Option β
  | [], k => k []
  | c :: t, k =>
    if c ∈ cs then k (c :: t)
    else
      match starNotRun cs t k with
      | some r => some r
      | none => k (c :: t)

/-- Backtracking matcher in continuation-passing style: `run r s caps k` matches
`r` at the front of `s` and hands the remainder and the captures to `k`; when
`k` fails the next alternative is tried. -/
def Regex.run {β : Type} : Regex → Str → Captures → (Str → Captures → Option β) → Option β
  | .lit cs, s, caps, k =>
    match dropLit cs s with
    | some rest => k rest caps
    | none => none
  | .alt a b, s, caps, k =>
    match Regex.run a s caps k with
    | some r => some r
    | none => Regex.run b s caps k
  | .seq a b, s, caps, k => Regex.run a s caps (fun rest caps1 => Regex.run b rest caps1 k)
  | .starNot cs, s, caps, k => starNotRun cs s (fun rest => k rest caps)
  | .plusNot cs, s, caps, k =>
    match s with
    | [] => none
    | c :: t => if c ∈ cs then none else starNotRun cs t (fun rest => k rest caps)
  | .group n r, s, caps, k =>
    Regex.run r s caps (fun rest caps1 => k rest ((n, consumed s rest) :: caps1))

/-- The match of `r` starting exactly at the front of `s`. -/
def Regex.matchHere (r : Regex) (s : Str) : Option Captures :=
  Regex.run r s [] (fun _ caps => some caps)

/-- JavaScript `s.match(r)` for a non-global `r`: the match at the leftmost
start position that has one, or `none` (JavaScript `null`). -/
def Regex.exec (r : Regex) : Str → Option Captures
  | [] => Regex.matchHere r []
  | c :: t =>
    match Regex.matchHere r (c :: t) with
    | some caps => some caps
    | none => Regex.exec r t

/-- The text of capture group `n` (`m[n]`); the empty string stands for a group
that did not take part, which no use below meets. -/
def capture (caps : Captures) (n : Nat) : Str :=
  match caps.lookup n with
  | some s => s
  | none => []

/-- JavaScript `s.includes(sub)`. -/
def includes : Str → Str → Bool
  | [], sub => sub.isEmpty
  | c :: t, sub => sub.isPrefixOf (c :: t) || includes t sub

/-! ## The extractor of the `get-feishu-doc` handler (`src/index.mjs` 225-243) -/

def feishuCn : Str := "feishu.cn".toList
def larksuiteCom : Str := "larksuite.com".toList
def unknownType : Str := "unknown".toList
def wikiType : Str := "wiki".toList

/-- The group `(?:feishu\.cn|larksuite\.com)`. -/
def domainRegex : Regex := .alt (.lit feishuCn) (.lit larksuiteCom)

/-- The alternation `doc|docx|sheet|sheets|mindnote|bitable|file|slides|wiki`. -/
def typeRegex : Regex :=
  .alt (.lit "doc".toList) (.alt (.lit "docx".toList) (.alt (.lit "sheet".toList)
    (.alt (.lit "sheets".toList) (.alt (.lit "mindnote".toList) (.alt (.lit "bitable".toList)
      (.alt (.lit "file".toList) (.alt (.lit "slides".toList) (.lit "wiki".toList))))))))

/-- The pattern
`/(?:feishu\.cn|larksuite\.com)\/(doc|docx|sheet|sheets|mindnote|bitable|file|slides|wiki)\/([^/?#]+)/`. -/
def urlRegex : Regex :=
  .seq domainRegex (.seq (.lit ['/']) (.seq (.group 1 typeRegex)
    (.seq (.lit ['/']) (.group 2 (.plusNot ['/', '?', '#'])))))

/-- The pattern `/(?:feishu\.cn|larksuite\.com)\/[^/]*\/([^/?#]+)/`. -/
def alternativeRegex : Regex :=
  .seq domainRegex (.seq (.lit ['/']) (.seq (.starNot ['/'])
    (.seq (.lit ['/']) (.group 1 (.plusNot ['/', '?', '#'])))))

/-- The pair `(docType, extractedDocId)` the handler computes from `docId`. -/
def extract (docId : Str) : Str × Str :=
  if includes docId feishuCn || includes docId larksuiteCom then
    match Regex.exec urlRegex docId with
    | some urlMatch => (capture urlMatch 1, capture urlMatch 2)
    | none =>
      match Regex.exec alternativeRegex docId with
      | some alternativeMatch => (unknownType, capture alternativeMatch 1)
      | none => (unknownType, docId)
  else (unknownType, docId)

/-! ## The remote document platform (the SDK client used by `FeishuService`) -/

/-- The `response` an SDK transport error carries, as the handler prints it:
`status`, `statusText` and `JSON.stringify(data)`, each already as text. -/
structure ErrorResponse where
  status : Str
  statusText : Str
  data : Str
deriving DecidableEq

/-- A thrown JavaScript error: its `message`, and its `response` property,
which `new Error(...)` does not have. -/
structure JsError where
  message : Str
  response : Option ErrorResponse
deriving DecidableEq

/-- JavaScript `new Error(message)`. -/
def newError (message : Str) : JsError := ⟨message, none⟩

/-- What a remote call returns: status `code`, `msg`, and the payload `data`,
which the service reads only after it has seen `code` equal to 0. -/
structure Response (α : Type) where
  code : Int
  msg : Str
  data : α
deriving DecidableEq

/-- A remote call throws or returns a response. -/
abbrev Remote (α : Type) := Except JsError (Response α)

structure DocxData where
  content : Str
deriving DecidableEq

structure Sheet where
  sheet_id : Str
  title : Str
deriving DecidableEq

structure SheetsData where
  sheets : Option (List Sheet)
deriving DecidableEq

structure Cell where
  text : Option Str
deriving DecidableEq

/-- One row of cells; a cell may be `null`. -/
abbrev Row := List (Option Cell)

structure ValueRange where
  values : Option (List Row)
deriving DecidableEq

structure ValuesData where
  value_ranges : Option (List ValueRange)
deriving DecidableEq

structure Slide where
  object_id : Str
deriving DecidableEq

structure Presentation where
  title : Str
  slides : Option (List Slide)
deriving DecidableEq

structure SlidesData where
  presentation : Presentation
deriving DecidableEq

structure App where
  name : Str
  description : Option Str
deriving DecidableEq

structure AppData where
  app : App
deriving DecidableEq

structure Table where
  name : Str
  table_id : Str
deriving DecidableEq

structure TablesData where
  items : Option (List Table)
deriving DecidableEq

/-- File metadata, each field as the template literal prints it. -/
structure File where
  name : Str
  type : Str
  size : Str
  created_time : Str
  modified_time : Str
deriving DecidableEq

structure FileData where
  file : File
deriving DecidableEq

structure Node where
  obj_type : Str
  obj_token : Str
deriving DecidableEq

structure NodeData where
  node : Node
deriving DecidableEq

/-- The capability surface of `lark.Client` the service consumes:
`docx.v1.document.rawContent`, `sheets.v1.spreadsheet.sheet.query`,
`sheets.v1.spreadsheet.sheet.valuesBatchGet` (token and the one range asked for),
`slides.v1.presentation.get`, `bitable.v1.app.get`, `bitable.v1.app.table.list`,
`drive.v1.file.get` and `wiki.v2.space.getNode`. -/
structure Client where
  rawContent : Str → Remote DocxData
  sheetQuery : Str → Remote SheetsData
  valuesBatchGet : Str → Str → Remote ValuesData
  presentationGet : Str → Remote SlidesData
  appGet : Str → Remote AppData
  tableList : Str → Remote TablesData
  fileGet : Str → Remote FileData
  getNode : Str → Remote NodeData

/-- A remote call as it appears in the call log. -/
inductive Call where
  | rawContent (documentId : Str)
  | sheetQuery (spreadsheetToken : Str)
  | valuesBatchGet (spreadsheetToken range : Str)
  | presentationGet (presentationToken : Str)
  | appGet (appToken : Str)
  | tableList (appToken : Str)
  | fileGet (fileToken : Str)
  | getNode (token : Str)
deriving DecidableEq

deriving instance DecidableEq for Except

/-- The outcome of an `async` function: the remote calls it issued, in order,
and the value it resolved to or the error it rejected with. -/
structure Run (α : Type) where
  calls : List Call
  result : Except JsError α
deriving DecidableEq

/-- A `try { ... } catch (error) { throw new Error(prefix + error.message) }`
around `r`. -/
def rethrow {α : Type} (pre : Str) (r : Run α) : Run α :=
  match r.result with
  | .ok _ => r
  | .error error => ⟨r.calls, .error (newError (pre ++ error.message))⟩

/-- Decimal text of a number inside a template literal. -/
def numText (n : Nat) : Str := (Nat.repr n).toList

/-! ## `FeishuService` (`src/services/feishu.mjs`) -/

def getDocx (client : Client) (documentId : Str) : Run Str :=
  match client.rawContent documentId with
  | .error e => ⟨[.rawContent documentId], .error e⟩
  | .ok response =>
    if response.code ≠ 0 then
      ⟨[.rawContent documentId],
        .error (newError ("Failed to get doc from Feishu API: ".toList ++ response.msg))⟩
    else ⟨[.rawContent documentId], .ok response.data.content⟩

/-- The cell text `cell?.text || ''`. -/
def cellText (cell : Option Cell) : Str :=
  match cell with
  | none => []
  | some c =>
    match c.text with
    | none => []
    | some t => t

/-- One row as `row.map(cell => cell?.text || '').flatten('\t') + '\n'`. -/
def rowLine (row : Row) : Str := List.intercalate ['\t'] (row.map cellText) ++ ['\n']

/-- The `values.forEach((row, index) => { if (index < 10) content += ... })`
loop, from position `index` on. -/
def appendRows : List Row → Nat → Str → Str
  | [], _, content => content
  | row :: rest, index, content =>
    appendRows rest (index + 1) (if index < 10 then content ++ rowLine row else content)

/-- The list `valuesResponse.data.value_ranges[0]?.values || []`. -/
def firstValues (value_ranges : List ValueRange) : List Row :=
  match value_ranges with
  | [] => []
  | vr :: _ =>
    match vr.values with
    | none => []
    | some values => values

/-- The range `${sheet.sheet_id}!A1:Z100` asked of `valuesBatchGet`. -/
def sheetRange (sheet : Sheet) : Str := sheet.sheet_id ++ "!A1:Z100".toList

/-- The `for (const sheet of ...)` loop of `getSheets` over the sheets still to
visit, with the calls issued and the content built so far. -/
def sheetsLoop (client : Client) (spreadsheetToken : Str) :
    List Sheet → List Call → Str → Run Str
  | [], calls, content => ⟨calls, .ok content⟩
  | sheet :: rest, calls, content =>
    let calls1 := calls ++ [Call.valuesBatchGet spreadsheetToken (sheetRange sheet)]
    match client.valuesBatchGet spreadsheetToken (sheetRange sheet) with
    | .error e => ⟨calls1, .error e⟩
    | .ok valuesResponse =>
      if valuesResponse.code = 0 then
        match valuesResponse.data.value_ranges with
        | some value_ranges =>
          sheetsLoop client spreadsheetToken rest calls1
            (appendRows (firstValues value_ranges) 0
              (content ++ "工作表: ".toList ++ sheet.title ++ ['\n']) ++ ['\n'])
        | none => sheetsLoop client spreadsheetToken rest calls1 content
      else sheetsLoop client spreadsheetToken rest calls1 content

def getSheets (client : Client) (spreadsheetToken : Str) : Run Str :=
  rethrow "Failed to get sheets content: ".toList
    (match client.sheetQuery spreadsheetToken with
    | .error e => ⟨[.sheetQuery spreadsheetToken], .error e⟩
    | .ok sheetsResponse =>
      if sheetsResponse.code ≠ 0 then
        ⟨[.sheetQuery spreadsheetToken],
          .error (newError ("Failed to get sheets list: ".toList ++ sheetsResponse.msg))⟩
      else
        let sheets := sheetsResponse.data.sheets.getD []
        sheetsLoop client spreadsheetToken (sheets.take 3) [.sheetQuery spreadsheetToken]
          "表格内容：\n\n".toList)

/-- The `slides.forEach((slide, index) => ...)` loop, from position `index` on. -/
def appendSlides : List Slide → Nat → Str → Str
  | [], _, content => content
  | slide :: rest, index, content =>
    appendSlides rest (index + 1)
      (content ++ "幻灯片 ".toList ++ numText (index + 1) ++ ": ".toList ++ slide.object_id ++ ['\n'])

def getSlides (client : Client) (presentationToken : Str) : Run Str :=
  rethrow "Failed to get slides content: ".toList
    (match client.presentationGet presentationToken with
    | .error e => ⟨[.presentationGet presentationToken], .error e⟩
    | .ok response =>
      if response.code ≠ 0 then
        ⟨[.presentationGet presentationToken],
          .error (newError ("Failed to get slides: ".toList ++ response.msg))⟩
      else
        let presentation := response.data.presentation
        let slides := presentation.slides.getD []
        ⟨[.presentationGet presentationToken],
          .ok (appendSlides slides 0
            ("演示文稿标题: ".toList ++ presentation.title ++ "\n\n".toList
              ++ "共 ".toList ++ numText slides.length ++ " 张幻灯片\n\n".toList))⟩)

/-- The text `app.description || '无描述'`. -/
def descriptionText (description : Option Str) : Str :=
  match description with
  | none => "无描述".toList
  | some [] => "无描述".toList
  | some d => d

/-- The `tables.forEach((table, index) => ...)` loop, from position `index` on. -/
def appendTables : List Table → Nat → Str → Str
  | [], _, content => content
  | table :: rest, index, content =>
    appendTables rest (index + 1)
      (content ++ numText (index + 1) ++ ". ".toList ++ table.name ++ " (".toList
        ++ table.table_id ++ ")\n".toList)

def getBitable (client : Client) (appToken : Str) : Run Str :=
  rethrow "Failed to get bitable content: ".toList
    (match client.appGet appToken with
    | .error e => ⟨[.appGet appToken], .error e⟩
    | .ok response =>
      if response.code ≠ 0 then
        ⟨[.appGet appToken], .error (newError ("Failed to get bitable: ".toList ++ response.msg))⟩
      else
        let app := response.data.app
        let content := "多维表格: ".toList ++ app.name ++ "\n描述: ".toList
          ++ descriptionText app.description ++ "\n\n".toList
        match client.tableList appToken with
        | .error e => ⟨[.appGet appToken, .tableList appToken], .error e⟩
        | .ok tablesResponse =>
          if tablesResponse.code = 0 then
            let tables := tablesResponse.data.items.getD []
            ⟨[.appGet appToken, .tableList appToken],
              .ok (appendTables tables 0
                (content ++ "包含 ".toList ++ numText tables.length ++ " 个数据表:\n".toList))⟩
          else ⟨[.appGet appToken, .tableList appToken], .ok content⟩)

def getFile (client : Client) (fileToken : Str) : Run Str :=
  rethrow "Failed to get file content: ".toList
    (match client.fileGet fileToken with
    | .error e => ⟨[.fileGet fileToken], .error e⟩
    | .ok response =>
      if response.code ≠ 0 then
        ⟨[.fileGet fileToken], .error (newError ("Failed to get file info: ".toList ++ response.msg))⟩
      else
        let file := response.data.file
        ⟨[.fileGet fileToken],
          .ok ("文件名: ".toList ++ file.name ++ "\n类型: ".toList ++ file.type
            ++ "\n大小: ".toList ++ file.size ++ " 字节\n创建时间: ".toList ++ file.created_time
            ++ "\n修改时间: ".toList ++ file.modified_time)⟩)

/-- The message of the `default:` branch of `getContentByType`. -/
def unsupportedMessage (docType : Str) : Str :=
  "不支持的文档类型: ".toList ++ docType
    ++ "。支持的类型: doc, docx, sheet, sheets, slides, bitable, file, mindnote".toList

/-- The text of the `mindnote` branch of `getContentByType`. -/
def mindnoteText (token : Str) : Str :=
  "思维笔记文档 (ID: ".toList ++ token ++ ")\n暂不支持内容提取，请直接访问飞书查看。".toList

def getContentByType (client : Client) (docType token : Str) : Run Str :=
  if docType = "docx".toList ∨ docType = "doc".toList then getDocx client token
  else if docType = "sheet".toList ∨ docType = "sheets".toList then getSheets client token
  else if docType = "slides".toList then getSlides client token
  else if docType = "bitable".toList then getBitable client token
  else if docType = "file".toList then getFile client token
  else if docType = "mindnote".toList then ⟨[], .ok (mindnoteText token)⟩
  else ⟨[], .error (newError (unsupportedMessage docType))⟩

def getNode (client : Client) (token : Str) : Run Str :=
  match client.getNode token with
  | .error e => ⟨[.getNode token], .error e⟩
  | .ok response =>
    if response.code ≠ 0 then
      ⟨[.getNode token],
        .error (newError ("Failed to get node from Feishu API: ".toList ++ response.msg))⟩
    else
      let r := getContentByType client response.data.node.obj_type response.data.node.obj_token
      ⟨Call.getNode token :: r.calls, r.result⟩

/-! ## Configuration (`src/config/index.mjs`) and start-up (`src/index.mjs` 15-23) -/

/-- The two environment variables read at start-up; `none` is an unset variable. -/
structure Env where
  FEISHU_APP_ID : Option Str
  FEISHU_APP_SECRET : Option Str

structure FeishuConfig where
  feishuAppId : Str
  feishuAppSecret : Str
deriving DecidableEq

/-- JavaScript `!v` for a value that is `undefined` or a string. -/
def isFalsy (v : Option Str) : Bool :=
  match v with
  | none => true
  | some [] => true
  | some (_ :: _) => false

def getFeishuConfig (env : Env) : Option FeishuConfig :=
  if isFalsy env.FEISHU_APP_ID || isFalsy env.FEISHU_APP_SECRET then none
  else some ⟨env.FEISHU_APP_ID.getD [], env.FEISHU_APP_SECRET.getD []⟩

/-- A UTF-16 code unit, the element of a JavaScript string that `length`,
`substring` and `repeat` count. -/
abbrev CodeUnit := Fin 65536

/-- A JavaScript string as its sequence of UTF-16 code units; a lone surrogate
is a unit like any other. -/
abbrev JsString := List CodeUnit

/-- The UTF-16 code units of a character: one unit in the Basic Multilingual
Plane, a surrogate pair above it. -/
def utf16 (c : Char) : JsString :=
  if c.toNat < 65536 then [⟨c.toNat % 65536, Nat.mod_lt _ (by decide)⟩]
  else
    [⟨(55296 + (c.toNat - 65536) / 1024) % 65536, Nat.mod_lt _ (by decide)⟩,
      ⟨(56320 + (c.toNat - 65536) % 1024) % 65536, Nat.mod_lt _ (by decide)⟩]

/-- The JavaScript string of a text. -/
def toUtf16 (s : Str) : JsString := (s.map utf16).flatten

/-- The character U+1F600, outside the Basic Multilingual Plane. -/
def grinningFace : Char := Char.ofNat 128512

/-- The unit of `"*"`. -/
def asterisk : CodeUnit := 42

/-- The helper `maskApiKey` on the code units of `key`; `none` is a missing
key, and `!key` holds of a missing and of an empty key. -/
def maskApiKey (key : Option JsString) : JsString :=
  match key with
  | none => toUtf16 "未设置".toList
  | some [] => toUtf16 "未设置".toList
  | some (u :: us) =>
    let key := u :: us
    if key.length ≤ 8 then List.replicate key.length asterisk
    else key.take 4 ++ List.replicate (key.length - 8) asterisk ++ key.drop (key.length - 4)

/-- A constructed `FeishuService`: it holds the SDK client. -/
structure FeishuService where
  client : Client

/-- The module-level initialisation of `feishuService`; `newClient` is the SDK
constructor `new lark.Client({ appId, appSecret })`. -/
def initFeishuService (newClient : Str → Str → Client) (env : Env) : Option FeishuService :=
  match getFeishuConfig env with
  | some feishuConfig => some ⟨newClient feishuConfig.feishuAppId feishuConfig.feishuAppSecret⟩
  | none => none

/-! ## The `get-feishu-doc` tool handler (`src/index.mjs` 211-276) -/

structure ContentItem where
  type : Str
  text : Str
deriving DecidableEq

/-- What a tool handler returns. -/
structure ToolResult where
  content : List ContentItem
deriving DecidableEq

/-- The result `{ content: [{ type: "text", text }] }`. -/
def textResult (text : Str) : ToolResult := ⟨[⟨"text".toList, text⟩]⟩

def unconfiguredMessage : Str :=
  "飞书服务未配置：请设置 FEISHU_APP_ID 和 FEISHU_APP_SECRET 环境变量".toList

/-- The `TypeError` the engine throws when `error.response.status` is read and
`error.response` is `undefined`. -/
def responseTypeError : JsError :=
  newError "Cannot read properties of undefined (reading \x27status\x27)".toList

/-- The template literal of the `catch` block, once `error.response` is there. -/
def failureText (message : Str) (response : ErrorResponse) : Str :=
  "获取飞书文档失败：".toList ++ message ++ ", ".toList ++ response.status ++ ", ".toList
    ++ response.statusText ++ ", ".toList ++ response.data

/-- The body of the `try` block: extraction, then the service call the handler
picks (lines 225-255). -/
def fetchContent (feishuService : FeishuService) (docId : Str) : Run Str :=
  let docType := (extract docId).1
  let extractedDocId := (extract docId).2
  if docType ≠ unknownType ∧ docType ≠ wikiType then
    getContentByType feishuService.client docType extractedDocId
  else getNode feishuService.client extractedDocId

/-- The handler of `get-feishu-doc`.  In the `catch` block the template literal
reads `error.response.status` before anything is returned, so an error without a
`response` makes the block itself throw. -/
def getFeishuDoc (feishuService : Option FeishuService) (docId : Str) : Run ToolResult :=
  match feishuService with
  | none => ⟨[], .ok (textResult unconfiguredMessage)⟩
  | some service =>
    let r := fetchContent service docId
    match r.result with
    | .ok content => ⟨r.calls, .ok (textResult content)⟩
    | .error error =>
      match error.response with
      | none => ⟨r.calls, .error responseTypeError⟩
      | some response => ⟨r.calls, .ok (textResult (failureText error.message response))⟩

/-! ## Definitions used in the statements -/

/-- The string `R` is empty or starts with a character of `cs`: the greedy
class `[^cs]` cannot go on into `R`. -/
def Stops (cs R : Str) : Prop := ∀ c ∈ R.head?, c ∈ cs

/-- The pattern `r` matches at no start position inside `P` when `rest` follows
`P`: a match that starts at `rest` is the leftmost one of `P ++ rest`. -/
def noMatchBefore (r : Regex) : Str → Str → Bool
  | [], _ => true
  | c :: P, rest => (Regex.matchHere r (c :: (P ++ rest))).isNone && noMatchBefore r P rest

/-- An input of C8 in which the fallback pattern fails at the first occurrence
of a recognized domain and matches at the second. -/
def laterOccurrenceUrl : Str := "feishu.cn?x=feishu.cn/a/b".toList

/-- The final continuation of `Regex.matchHere`. -/
def accept : Str → Captures → Option Captures := fun _ caps => some caps

/-- The closed set of type tags of the typed URL pattern. -/
def urlTypes : List Str :=
  ["doc".toList, "docx".toList, "sheet".toList, "sheets".toList, "mindnote".toList,
    "bitable".toList, "file".toList, "slides".toList, "wiki".toList]

/-- Follows the spec's words for C8, "the last path segment of the URL (the
segment after the final `/` of the path, up to any `?` or `#`)". -/
def specLastPathSegment (s : Str) : Str :=
  ((s.takeWhile (fun c => c != '?' && c != '#')).reverse.takeWhile (fun c => c != '/')).reverse

/-- The example input of C8. -/
def threeSegmentUrl : Str := "https://xx.feishu.cn/a/b/c".toList

/-- The text shown for a cell: its `text`, and the empty text for a `null` cell
or a cell without `text`. -/
def specCellText (cell : Option Cell) : Str :=
  (cell.bind (fun c => c.text)).getD []

/-- Follows the spec's words, "tab-separated text": the cell texts of a row with
one tab between two neighbours. -/
def specRowText : Row → Str
  | [] => []
  | [cell] => specCellText cell
  | cell :: next :: rest => specCellText cell ++ '\t' :: specRowText (next :: rest)

/-- A rendered row: the tab-separated cell texts and a line break. -/
def specRowLine (row : Row) : Str := specRowText row ++ ['\n']

/-- The rows the remote holds for a sheet under the range `<sheet_id>!A1:Z100`:
those of the first value range of a response with code 0 that has value ranges
(no rows when the list of ranges is empty or the first has no values); `none`
when the call throws, is refused, or the response has no value ranges. -/
def specSheetValues (client : Client) (spreadsheetToken : Str) (sheet : Sheet) :
    Option (List Row) :=
  match client.valuesBatchGet spreadsheetToken (sheet.sheet_id ++ "!A1:Z100".toList) with
  | .ok valuesResponse =>
    if valuesResponse.code = 0 then
      match valuesResponse.data.value_ranges with
      | none => none
      | some [] => some []
      | some (first :: _) => some (first.values.getD [])
    else none
  | .error _ => none

/-- A sheet section of the output: the sheet title and the rendered row lines. -/
structure SheetSection where
  title : Str
  rowLines : List Str
deriving DecidableEq

/-- Follows the spec's words, "renders at most the first 10 rows of each as
tab-separated text, prefixed by sheet title". -/
def specSection (client : Client) (spreadsheetToken : Str) (sheet : Sheet) :
    Option SheetSection :=
  (specSheetValues client spreadsheetToken sheet).map
    (fun values => ⟨sheet.title, (values.take 10).map specRowLine⟩)

/-- Follows the spec's words, "for at most the first 3 sheets". -/
def specSections (client : Client) (spreadsheetToken : Str) (sheets : List Sheet) :
    List SheetSection :=
  (sheets.take 3).filterMap (specSection client spreadsheetToken)

/-- The text of a sheet section. -/
def renderSection (sec : SheetSection) : Str :=
  "工作表: ".toList ++ sec.title ++ ['\n'] ++ sec.rowLines.flatten ++ ['\n']

/-- A remote that answers every call with the same `code` and `msg` and an
empty payload. -/
def constClient (code : Int) (msg : Str) : Client where
  rawContent := fun _ => .ok ⟨code, msg, ⟨[]⟩⟩
  sheetQuery := fun _ => .ok ⟨code, msg, ⟨none⟩⟩
  valuesBatchGet := fun _ _ => .ok ⟨code, msg, ⟨none⟩⟩
  presentationGet := fun _ => .ok ⟨code, msg, ⟨⟨[], none⟩⟩⟩
  appGet := fun _ => .ok ⟨code, msg, ⟨⟨[], none⟩⟩⟩
  tableList := fun _ => .ok ⟨code, msg, ⟨none⟩⟩
  fileGet := fun _ => .ok ⟨code, msg, ⟨⟨[], [], [], [], []⟩⟩⟩
  getNode := fun _ => .ok ⟨code, msg, ⟨⟨[], []⟩⟩⟩

/-- The 50 sheets of the boundary workbook. -/
def bigWorkbookSheets : List Sheet :=
  (List.range 50).map (fun i => ⟨"s".toList ++ numText i, "Sheet".toList ++ numText i⟩)

/-- The 500 rows of each sheet of the boundary workbook. -/
def bigWorkbookRows : List Row := List.replicate 500 [some ⟨some "x".toList⟩, none]

/-- A remote holding the 50-sheet, 500-row boundary workbook. -/
def bigWorkbookClient : Client :=
  { constClient 0 "success".toList with
    sheetQuery := fun _ => .ok ⟨0, "success".toList, ⟨some bigWorkbookSheets⟩⟩
    valuesBatchGet := fun _ _ =>
      .ok ⟨0, "success".toList, ⟨some [⟨some bigWorkbookRows⟩]⟩⟩ }

/-- The type tags the dispatcher has a branch for, as its error message lists them. -/
def supportedTypes : List Str :=
  ["doc".toList, "docx".toList, "sheet".toList, "sheets".toList, "slides".toList,
    "bitable".toList, "file".toList, "mindnote".toList]

/-- A remote that refuses every call with code 1770032 and msg `forbidden`. -/
def forbiddenClient : Client := constClient 1770032 "forbidden".toList

/-- A remote whose primary calls succeed and whose secondary calls
(`valuesBatchGet`, `table.list`) are refused. -/
def secondaryRefusedClient : Client :=
  { forbiddenClient with
    sheetQuery := fun _ => .ok ⟨0, "success".toList, ⟨some [⟨"s1".toList, "Sheet1".toList⟩]⟩⟩
    appGet := fun _ => .ok ⟨0, "success".toList, ⟨⟨"Base".toList, none⟩⟩⟩ }

/-- The type tags with which the handler calls the dispatcher directly. -/
def directTypes : List Str :=
  ["doc".toList, "docx".toList, "sheet".toList, "sheets".toList, "mindnote".toList,
    "bitable".toList, "file".toList, "slides".toList]

/-- A call to the node-resolution endpoint `wiki.v2.space.getNode`. -/
def isNodeCall : Call → Bool
  | .getNode _ => true
  | _ => false

/-- A remote whose wiki node `wikitok` is the docx document `doxtok` with the
content `hello`. -/
def wikiClient : Client :=
  { forbiddenClient with
    getNode := fun _ => .ok ⟨0, "success".toList, ⟨⟨"docx".toList, "doxtok".toList⟩⟩⟩
    rawContent := fun _ => .ok ⟨0, "success".toList, ⟨"hello".toList⟩⟩ }

/-! ## Facts about lists and the matcher -/

theorem dropLit_append (cs rest : Str) : dropLit cs (cs ++ rest) = some rest := by
  induction cs with
  | nil => cases rest <;> rfl
  | cons c cs ih => simp [dropLit, ih]

theorem dropLit_eq_some {cs s rest : Str} : dropLit cs s = some rest ↔ s = cs ++ rest := by
  constructor
  · intro h
    induction cs generalizing s with
    | nil => cases s <;> simp_all [dropLit]
    | cons c cs ih =>
      cases s with
      | nil => simp [dropLit] at h
      | cons d s =>
        simp only [dropLit] at h
        split at h
        · next hcd => subst hcd; simp [ih h]
        · cases h
  · rintro rfl
    exact dropLit_append cs rest

theorem dropLit_eq_none {cs s : Str} : dropLit cs s = none ↔ ¬ cs <+: s := by
  constructor
  · rintro h ⟨rest, rfl⟩
    rw [dropLit_append] at h
    cases h
  · intro h
    cases hd : dropLit cs s with
    | none => rfl
    | some rest => exact absurd ⟨rest, (dropLit_eq_some.mp hd).symm⟩ h

theorem includes_iff (s sub : Str) : includes s sub = true ↔ sub <:+: s := by
  induction s with
  | nil => cases sub <;> simp [includes]
  | cons c t ih =>
    simp only [includes, Bool.or_eq_true, ih, List.isPrefixOf_iff_prefix]
    rw [List.infix_cons_iff]

theorem consumed_append (a b : Str) : consumed (a ++ b) b = a := by
  simp [consumed]

theorem starNotRun_stops {β : Type} {cs R : Str} (k : Str → Option β) (hR : Stops cs R) :
    starNotRun cs R k = k R := by
  cases R with
  | nil => rfl
  | cons c t =>
    have hc : c ∈ cs := hR c (by simp)
    simp [starNotRun, hc]

/-- Greedy `[^cs]*` in front of a stop: it takes all of `I`, provided the
continuation accepts there or rejects every shorter take as well. -/
theorem starNotRun_append {β : Type} {cs R : Str} (k : Str → Option β) (hR : Stops cs R) :
    ∀ I : Str, (∀ c ∈ I, c ∉ cs) →
      (k R ≠ none ∨ ∀ I1 I2, I = I1 ++ I2 → I2 ≠ [] → k (I2 ++ R) = none) →
      starNotRun cs (I ++ R) k = k R
  | [], _, _ => starNotRun_stops k hR
  | c :: I, hI, hk => by
    have hc : c ∉ cs := hI c (by simp)
    have ih := starNotRun_append k hR I (fun x hx => hI x (by simp [hx]))
      (hk.imp id (fun h I1 I2 h12 h2 => h (c :: I1) I2 (by simp [h12]) h2))
    simp only [List.cons_append, List.append_eq, starNotRun, hc, if_false, ih]
    cases hkR : k R with
    | some r => rfl
    | none =>
      rcases hk with hk | hk
      · exact absurd hkR hk
      · exact hk [] (c :: I) rfl (by simp)


theorem starNotRun_some {β : Type} {cs : Str} (k : Str → Option β) {r : β} :
    ∀ s : Str, starNotRun cs s k = some r → ∃ rest, k rest = some r
  | [], h => ⟨[], h⟩
  | c :: t, h => by
    simp only [starNotRun] at h
    split at h
    · exact ⟨c :: t, h⟩
    · split at h
      · next r1 h1 =>
        cases h
        exact starNotRun_some k t h1
      · exact ⟨c :: t, h⟩

theorem run_lit {β : Type} (cs s : Str) (caps : Captures) (k : Str → Captures → Option β) :
    Regex.run (.lit cs) s caps k =
      match dropLit cs s with
      | some rest => k rest caps
      | none => none := rfl

theorem run_alt {β : Type} (a b : Regex) (s : Str) (caps : Captures)
    (k : Str → Captures → Option β) :
    Regex.run (.alt a b) s caps k =
      match Regex.run a s caps k with
      | some r => some r
      | none => Regex.run b s caps k := rfl

theorem run_seq {β : Type} (a b : Regex) (s : Str) (caps : Captures)
    (k : Str → Captures → Option β) :
    Regex.run (.seq a b) s caps k =
      Regex.run a s caps (fun rest caps1 => Regex.run b rest caps1 k) := rfl

theorem run_starNot {β : Type} (cs s : Str) (caps : Captures) (k : Str → Captures → Option β) :
    Regex.run (.starNot cs) s caps k = starNotRun cs s (fun rest => k rest caps) := rfl

theorem run_group {β : Type} (n : Nat) (r : Regex) (s : Str) (caps : Captures)
    (k : Str → Captures → Option β) :
    Regex.run (.group n r) s caps k =
      Regex.run r s caps (fun rest caps1 => k rest ((n, consumed s rest) :: caps1)) := rfl

/-- Greedy `[^cs]+` followed by a continuation that accepts at the stop: it
takes exactly `I`. -/
theorem run_plusNot_append {β : Type} {cs I R : Str} (caps : Captures)
    (k : Str → Captures → Option β) (hI : I ≠ []) (hc : ∀ c ∈ I, c ∉ cs) (hR : Stops cs R)
    (hk : k R caps ≠ none) : Regex.run (.plusNot cs) (I ++ R) caps k = k R caps := by
  cases I with
  | nil => exact absurd rfl hI
  | cons c I =>
    have hc1 : c ∉ cs := hc c (by simp)
    simp only [List.cons_append, Regex.run, hc1, if_false]
    exact starNotRun_append (fun rest => k rest caps) hR I (fun x hx => hc x (by simp [hx]))
      (Or.inl hk)

theorem run_plusNot_some {β : Type} {cs s : Str} {caps : Captures}
    {k : Str → Captures → Option β} {r : β} (h : Regex.run (.plusNot cs) s caps k = some r) :
    ∃ rest, k rest caps = some r := by
  cases s with
  | nil => simp [Regex.run] at h
  | cons c t =>
    simp only [Regex.run] at h
    split at h
    · cases h
    · exact starNotRun_some (fun rest => k rest caps) t h

theorem exec_of_matchHere {r : Regex} {s : Str} {caps : Captures}
    (h : Regex.matchHere r s = some caps) : Regex.exec r s = some caps := by
  cases s with
  | nil => exact h
  | cons c t => simp [Regex.exec, h]

/-- The leftmost-match search passes over a prefix at none of whose positions
the pattern matches. -/
theorem exec_append_of_no_match (r : Regex) (S : Str) :
    ∀ P : Str, (∀ P1 P2, P = P1 ++ P2 → P2 ≠ [] → Regex.matchHere r (P2 ++ S) = none) →
      Regex.exec r (P ++ S) = Regex.exec r S
  | [], _ => rfl
  | c :: P, h => by
    have h0 : Regex.matchHere r (c :: (P ++ S)) = none := h [] (c :: P) rfl (by simp)
    have ih := exec_append_of_no_match r S P
      (fun P1 P2 h12 h2 => h (c :: P1) P2 (by simp [h12]) h2)
    simp only [List.cons_append, List.append_eq, Regex.exec, h0, ih]

/-- A pattern that occurs at the front of `P2 ++ c :: S`, where `c` is not among
its characters after the first, already occurs at the front of `P2`. -/
theorem prefix_of_prefix_append {d P2 S : Str} {c : Char} (hc : c ∉ d.tail) (hP2 : P2 ≠ [])
    (h : d <+: P2 ++ c :: S) : d <+: P2 := by
  have hP : P2 <+: P2 ++ c :: S := List.prefix_append _ _
  by_cases hlen : d.length ≤ P2.length
  · exact List.prefix_of_prefix_length_le h hP hlen
  · exfalso
    obtain ⟨t, ht⟩ := List.prefix_of_prefix_length_le hP h (by omega)
    subst ht
    have ht2 : t <+: c :: S := (List.prefix_append_right_inj P2).mp h
    cases t with
    | nil => simp at hlen
    | cons x t =>
      have hx : x = c := by
        obtain ⟨u, hu⟩ := ht2
        simp at hu
        exact hu.1
      subst hx
      apply hc
      cases P2 with
      | nil => exact absurd rfl hP2
      | cons p P2 => simp

theorem matchHere_eq (r : Regex) (s : Str) : Regex.matchHere r s = Regex.run r s [] accept := rfl

/-- Neither pattern matches where no recognized domain starts. -/
theorem matchHere_none_of_no_domain (tail : Regex) {s : Str} (h1 : ¬ feishuCn <+: s)
    (h2 : ¬ larksuiteCom <+: s) : Regex.matchHere (.seq domainRegex tail) s = none := by
  simp only [matchHere_eq, domainRegex, run_seq, run_alt, run_lit, dropLit_eq_none.mpr h1,
    dropLit_eq_none.mpr h2]

/-- Where a recognized domain starts, the rest of the pattern decides. -/
theorem matchHere_domain (tail : Regex) {D : Str} (X : Str)
    (hD : D = feishuCn ∨ D = larksuiteCom) :
    Regex.matchHere (.seq domainRegex tail) (D ++ X) = Regex.run tail X [] accept := by
  rcases hD with rfl | rfl
  · simp only [matchHere_eq, domainRegex, run_seq, run_alt, run_lit, dropLit_append]
    have h2 : dropLit larksuiteCom (feishuCn ++ X) = none := by
      simp [larksuiteCom, feishuCn, dropLit]
    rw [h2]
    cases Regex.run tail X [] accept <;> rfl
  · simp only [matchHere_eq, domainRegex, run_seq, run_alt, run_lit, dropLit_append]
    have h1 : dropLit feishuCn (larksuiteCom ++ X) = none := by
      simp [larksuiteCom, feishuCn, dropLit]
    rw [h1]

/-- No recognized domain starts inside a prefix `P` that contains none, when a
recognized domain follows `P`. -/
theorem no_domain_before {P D X : Str}
    (hP : includes P feishuCn = false ∧ includes P larksuiteCom = false)
    (hD : D = feishuCn ∨ D = larksuiteCom) (P1 P2 : Str) (h12 : P = P1 ++ P2) (h2 : P2 ≠ []) :
    ¬ feishuCn <+: P2 ++ (D ++ X) ∧ ¬ larksuiteCom <+: P2 ++ (D ++ X) := by
  have hsuf : P2 <:+ P := ⟨P1, h12.symm⟩
  have hf : ¬ feishuCn <:+: P := by
    rw [← includes_iff]; simp [hP.1]
  have hl : ¬ larksuiteCom <:+: P := by
    rw [← includes_iff]; simp [hP.2]
  rcases hD with rfl | rfl
  · constructor
    · intro h
      exact hf ((prefix_of_prefix_append (c := 'f') (S := "eishu.cn".toList ++ X)
        (by decide) h2 h).isInfix.trans hsuf.isInfix)
    · intro h
      exact hl ((prefix_of_prefix_append (c := 'f') (S := "eishu.cn".toList ++ X)
        (by decide) h2 h).isInfix.trans hsuf.isInfix)
  · constructor
    · intro h
      exact hf ((prefix_of_prefix_append (c := 'l') (S := "arksuite.com".toList ++ X)
        (by decide) h2 h).isInfix.trans hsuf.isInfix)
    · intro h
      exact hl ((prefix_of_prefix_append (c := 'l') (S := "arksuite.com".toList ++ X)
        (by decide) h2 h).isInfix.trans hsuf.isInfix)

/-- The leftmost match of either pattern in `P ++ D ++ X` is the one at `D`. -/
theorem exec_at_domain (tail : Regex) {P D X : Str}
    (hP : includes P feishuCn = false ∧ includes P larksuiteCom = false)
    (hD : D = feishuCn ∨ D = larksuiteCom) {caps : Captures}
    (h : Regex.run tail X [] accept = some caps) :
    Regex.exec (.seq domainRegex tail) (P ++ (D ++ X)) = some caps := by
  rw [exec_append_of_no_match _ _ P (fun P1 P2 h12 h2 =>
    matchHere_none_of_no_domain tail (no_domain_before hP hD P1 P2 h12 h2).1
      (no_domain_before hP hD P1 P2 h12 h2).2)]
  exact exec_of_matchHere ((matchHere_domain tail X hD).trans h)

theorem includes_domain {P D X : Str} (hD : D = feishuCn ∨ D = larksuiteCom) :
    (includes (P ++ (D ++ X)) feishuCn || includes (P ++ (D ++ X)) larksuiteCom) = true := by
  have h : D <:+: P ++ (D ++ X) := ⟨P, X, by simp⟩
  rcases hD with rfl | rfl
  · simp [(includes_iff _ _).mpr h]
  · simp [(includes_iff _ _).mpr h]

/-- The class `[^/?#]` stops at `R`. -/
theorem stops_of_head {R : Str} (hR : ∀ c ∈ R.head?, c = '/' ∨ c = '?' ∨ c = '#') :
    Stops ['/', '?', '#'] R := by
  intro c hc
  simpa using hR c hc

theorem not_mem_of_idChars {I : Str} (hIc : ∀ c ∈ I, c ≠ '/' ∧ c ≠ '?' ∧ c ≠ '#') :
    ∀ c ∈ I, c ∉ ['/', '?', '#'] := by
  intro c hc
  have := hIc c hc
  simp [this.1, this.2.1, this.2.2]

/-- The part of the typed pattern after the domain, on `/T/I` followed by `R`. -/
theorem run_typed_tail {T I R : Str} (hT : T ∈ urlTypes) (hI : I ≠ [])
    (hIc : ∀ c ∈ I, c ≠ '/' ∧ c ≠ '?' ∧ c ≠ '#')
    (hR : ∀ c ∈ R.head?, c = '/' ∨ c = '?' ∨ c = '#') :
    Regex.run (.seq (.lit ['/']) (.seq (.group 1 typeRegex)
      (.seq (.lit ['/']) (.group 2 (.plusNot ['/', '?', '#'])))))
      ('/' :: (T ++ '/' :: (I ++ R))) [] accept = some [(2, I), (1, T)] := by
  have hplus : ∀ caps : Captures, ∀ k : Str → Captures → Option Captures,
      k R caps ≠ none → Regex.run (.plusNot ['/', '?', '#']) (I ++ R) caps k = k R caps :=
    fun caps k hk => run_plusNot_append caps k hI (not_mem_of_idChars hIc) (stops_of_head hR) hk
  simp only [urlTypes, List.mem_cons, List.mem_singleton, List.not_mem_nil, or_false] at hT
  rcases hT with rfl | rfl | rfl | rfl | rfl | rfl | rfl | rfl | rfl <;>
    simp [typeRegex, run_seq, run_alt, run_lit, run_group, dropLit, hplus, accept,
      consumed_append, consumed]

theorem urlRegex_eq : urlRegex = .seq domainRegex (.seq (.lit ['/']) (.seq (.group 1 typeRegex)
    (.seq (.lit ['/']) (.group 2 (.plusNot ['/', '?', '#']))))) := rfl

theorem alternativeRegex_eq : alternativeRegex = .seq domainRegex (.seq (.lit ['/'])
    (.seq (.starNot ['/']) (.seq (.lit ['/']) (.group 1 (.plusNot ['/', '?', '#']))))) := rfl

/-- The part of the fallback pattern after the domain, on `/S/I` followed by `R`,
where `S` has no `/`. -/
theorem run_alternative_tail {S I R : Str} (hS : ∀ c ∈ S, c ≠ '/') (hI : I ≠ [])
    (hIc : ∀ c ∈ I, c ≠ '/' ∧ c ≠ '?' ∧ c ≠ '#')
    (hR : ∀ c ∈ R.head?, c = '/' ∨ c = '?' ∨ c = '#') :
    Regex.run (.seq (.lit ['/']) (.seq (.starNot ['/'])
      (.seq (.lit ['/']) (.group 1 (.plusNot ['/', '?', '#'])))))
      ('/' :: (S ++ '/' :: (I ++ R))) [] accept = some [(1, I)] := by
  have hplus : ∀ caps : Captures, ∀ k : Str → Captures → Option Captures,
      k R caps ≠ none → Regex.run (.plusNot ['/', '?', '#']) (I ++ R) caps k = k R caps :=
    fun caps k hk => run_plusNot_append caps k hI (not_mem_of_idChars hIc) (stops_of_head hR) hk
  have hstop : Stops ['/'] ('/' :: (I ++ R)) := by
    intro c hc
    simpa using hc.symm
  have hS1 : ∀ c ∈ S, c ∉ ['/'] := by
    intro c hc
    simpa using hS c hc
  simp only [run_seq, run_lit, dropLit, if_true, run_starNot]
  rw [starNotRun_append _ hstop S hS1 (Or.inl (by
    simp [run_group, hplus, accept, consumed_append, dropLit]))]
  simp [run_group, hplus, accept, consumed_append, dropLit]

theorem run_lit_some {β : Type} {cs s : Str} {caps : Captures} {k : Str → Captures → Option β}
    {r : β} (h : Regex.run (.lit cs) s caps k = some r) :
    ∃ rest, s = cs ++ rest ∧ k rest caps = some r := by
  rw [run_lit] at h
  cases hd : dropLit cs s with
  | none => simp [hd] at h
  | some rest =>
    simp only [hd] at h
    exact ⟨rest, dropLit_eq_some.mp hd, h⟩

theorem run_alt_some {β : Type} {a b : Regex} {s : Str} {caps : Captures}
    {k : Str → Captures → Option β} {r : β} (h : Regex.run (.alt a b) s caps k = some r) :
    Regex.run a s caps k = some r ∨ Regex.run b s caps k = some r := by
  rw [run_alt] at h
  cases ha : Regex.run a s caps k with
  | none =>
    simp only [ha] at h
    exact Or.inr h
  | some r1 =>
    simp only [ha] at h
    exact Or.inl h

/-- Whatever the type alternation matches is one of the nine type tags. -/
theorem run_typeRegex_some {β : Type} {s : Str} {caps : Captures}
    {k : Str → Captures → Option β} {r : β} (h : Regex.run typeRegex s caps k = some r) :
    ∃ T ∈ urlTypes, ∃ rest, s = T ++ rest ∧ k rest caps = some r := by
  unfold typeRegex at h
  rcases run_alt_some h with h | h
  · exact ⟨_, by simp [urlTypes], run_lit_some h⟩
  rcases run_alt_some h with h | h
  · exact ⟨_, by simp [urlTypes], run_lit_some h⟩
  rcases run_alt_some h with h | h
  · exact ⟨_, by simp [urlTypes], run_lit_some h⟩
  rcases run_alt_some h with h | h
  · exact ⟨_, by simp [urlTypes], run_lit_some h⟩
  rcases run_alt_some h with h | h
  · exact ⟨_, by simp [urlTypes], run_lit_some h⟩
  rcases run_alt_some h with h | h
  · exact ⟨_, by simp [urlTypes], run_lit_some h⟩
  rcases run_alt_some h with h | h
  · exact ⟨_, by simp [urlTypes], run_lit_some h⟩
  rcases run_alt_some h with h | h
  · exact ⟨_, by simp [urlTypes], run_lit_some h⟩
  · exact ⟨_, by simp [urlTypes], run_lit_some h⟩

/-- Group 1 of any match of the typed pattern is one of the nine type tags. -/
theorem matchHere_urlRegex_type {s : Str} {caps : Captures}
    (h : Regex.matchHere urlRegex s = some caps) : capture caps 1 ∈ urlTypes := by
  rw [matchHere_eq, urlRegex_eq, run_seq] at h
  have h1 : ∃ rest1, Regex.run (.seq (.lit ['/']) (.seq (.group 1 typeRegex)
      (.seq (.lit ['/']) (.group 2 (.plusNot ['/', '?', '#']))))) rest1 [] accept = some caps := by
    rcases run_alt_some h with h | h
    · obtain ⟨rest1, _, h⟩ := run_lit_some h
      exact ⟨rest1, h⟩
    · obtain ⟨rest1, _, h⟩ := run_lit_some h
      exact ⟨rest1, h⟩
  obtain ⟨rest1, h⟩ := h1
  rw [run_seq] at h
  obtain ⟨rest2, _, h⟩ := run_lit_some h
  rw [run_seq, run_group] at h
  obtain ⟨T, hT, rest3, h3, h⟩ := run_typeRegex_some h
  subst h3
  rw [consumed_append, run_seq] at h
  obtain ⟨rest4, _, h⟩ := run_lit_some h
  rw [run_group] at h
  obtain ⟨rest5, h⟩ := run_plusNot_some h
  simp only [accept, Option.some.injEq] at h
  subst h
  simpa [capture, List.lookup] using hT

theorem exec_urlRegex_type : ∀ (s : Str) {caps : Captures},
    Regex.exec urlRegex s = some caps → capture caps 1 ∈ urlTypes
  | [], _, h => matchHere_urlRegex_type h
  | c :: t, caps, h => by
    simp only [Regex.exec] at h
    cases hm : Regex.matchHere urlRegex (c :: t) with
    | some caps1 =>
      simp only [hm, Option.some.injEq] at h
      subst h
      exact matchHere_urlRegex_type hm
    | none =>
      simp only [hm] at h
      exact exec_urlRegex_type t h

/-- The docType the extractor yields is one of the nine type tags or `unknown`. -/
theorem extract_type_mem (docId : Str) :
    (extract docId).1 ∈ urlTypes ∨ (extract docId).1 = unknownType := by
  unfold extract
  split
  · cases hu : Regex.exec urlRegex docId with
    | some urlMatch => exact Or.inl (exec_urlRegex_type docId hu)
    | none =>
      cases Regex.exec alternativeRegex docId <;> exact Or.inr rfl
  · exact Or.inr rfl

/-! ## The claims about the extractor -/

/-- C2. On an input `P + D + "/" + T + "/" + I + R`, where `P` contains no
recognized domain, `D` is `feishu.cn` or `larksuite.com`, `T` is one of the nine
type tags, `I` is non-empty without `/`, `?`, `#`, and `R` is empty or starts with
one of these, the extractor yields `docType = T` and `extractedDocId = I`. -/
theorem extract_typed_url (P D T I R : Str)
    (hP : includes P feishuCn = false ∧ includes P larksuiteCom = false)
    (hD : D = feishuCn ∨ D = larksuiteCom) (hT : T ∈ urlTypes) (hI : I ≠ [])
    (hIc : ∀ c ∈ I, c ≠ '/' ∧ c ≠ '?' ∧ c ≠ '#')
    (hR : ∀ c ∈ R.head?, c = '/' ∨ c = '?' ∨ c = '#') :
    extract (P ++ D ++ ['/'] ++ T ++ ['/'] ++ I ++ R) = (T, I) := by
  have hshape : P ++ D ++ ['/'] ++ T ++ ['/'] ++ I ++ R
      = P ++ (D ++ '/' :: (T ++ '/' :: (I ++ R))) := by simp
  have hexec : Regex.exec urlRegex (P ++ (D ++ '/' :: (T ++ '/' :: (I ++ R))))
      = some [(2, I), (1, T)] := by
    rw [urlRegex_eq]
    exact exec_at_domain _ hP hD (run_typed_tail hT hI hIc hR)
  rw [hshape]
  unfold extract
  rw [includes_domain hD, hexec]
  simp [capture, List.lookup]

/-- C2, at the input `https://xx.feishu.cn/docx/ABC123`. -/
theorem extract_typed_url_witness :
    extract ("https://xx.".toList ++ feishuCn ++ ['/'] ++ "docx".toList ++ ['/']
      ++ "ABC123".toList ++ []) = ("docx".toList, "ABC123".toList) :=
  extract_typed_url "https://xx.".toList feishuCn "docx".toList "ABC123".toList []
    (by decide) (Or.inl rfl) (by decide) (by decide) (by decide) (by decide)

/-- C3. On an input that contains neither `feishu.cn` nor `larksuite.com` the
extractor yields `docType = "unknown"` and the whole input as `extractedDocId`. -/
theorem extract_no_domain (docId : Str)
    (h : includes docId feishuCn = false ∧ includes docId larksuiteCom = false) :
    extract docId = (unknownType, docId) := by
  simp [extract, h.1, h.2]

/-- C3, at the input `ABC123`. -/
theorem extract_no_domain_witness :
    extract "ABC123".toList = ("unknown".toList, "ABC123".toList) :=
  extract_no_domain "ABC123".toList (by decide)

/-- C8 fails at `https://xx.feishu.cn/a/b/c`: the input contains a recognized
domain, the typed pattern does not match, the fallback pattern matches, and the
extractor yields the segment `b`, not the last path segment `c`. -/
theorem extract_fallback_not_last_segment :
    includes threeSegmentUrl feishuCn = true
      ∧ Regex.exec urlRegex threeSegmentUrl = none
      ∧ Regex.exec alternativeRegex threeSegmentUrl = some [(1, "b".toList)]
      ∧ extract threeSegmentUrl = ("unknown".toList, "b".toList)
      ∧ specLastPathSegment threeSegmentUrl = "c".toList
      ∧ (extract threeSegmentUrl).2 ≠ specLastPathSegment threeSegmentUrl := by
  decide

theorem exec_of_noMatchBefore (r : Regex) (rest : Str) :
    ∀ P : Str, noMatchBefore r P rest = true → Regex.exec r (P ++ rest) = Regex.exec r rest
  | [], _ => rfl
  | c :: P, h => by
    simp only [noMatchBefore, Bool.and_eq_true, Option.isNone_iff_eq_none] at h
    simp only [List.cons_append, List.append_eq, Regex.exec, h.1,
      exec_of_noMatchBefore r rest P h.2]

/-- A match found by the search starts at the leftmost position that has one. -/
theorem exec_some_leftmost (r : Regex) {caps : Captures} :
    ∀ s : Str, Regex.exec r s = some caps →
      ∃ P rest, s = P ++ rest ∧ noMatchBefore r P rest = true
        ∧ Regex.matchHere r rest = some caps
  | [], h => ⟨[], [], rfl, rfl, h⟩
  | c :: t, h => by
    simp only [Regex.exec] at h
    cases hm : Regex.matchHere r (c :: t) with
    | some caps1 =>
      simp only [hm, Option.some.injEq] at h
      subst h
      exact ⟨[], c :: t, rfl, rfl, hm⟩
    | none =>
      simp only [hm] at h
      obtain ⟨P, rest, ht, hP, hrest⟩ := exec_some_leftmost r t h
      subst ht
      exact ⟨c :: P, rest, rfl, by simp [noMatchBefore, hm, hP], hrest⟩

/-- Every string splits into a run outside `cs` and a remainder at which the
class `[^cs]` stops. -/
theorem split_at_stop (cs : Str) : ∀ s : Str, ∃ I R, s = I ++ R ∧ (∀ c ∈ I, c ∉ cs) ∧ Stops cs R
  | [] => ⟨[], [], rfl, by simp, by simp [Stops]⟩
  | c :: t => by
    by_cases hc : c ∈ cs
    · exact ⟨[], c :: t, rfl, by simp, by simp [Stops, hc]⟩
    · obtain ⟨I, R, ht, hI, hR⟩ := split_at_stop cs t
      subst ht
      refine ⟨c :: I, R, rfl, ?_, hR⟩
      intro x hx
      rcases List.mem_cons.mp hx with rfl | hx
      · exact hc
      · exact hI x hx

/-- A match of a greedy `[^cs]+` in front of a continuation that always accepts
takes the whole run outside `cs`. -/
theorem run_plusNot_some_split {β : Type} {cs s : Str} {caps : Captures}
    {k : Str → Captures → Option β} {r : β} (h : Regex.run (.plusNot cs) s caps k = some r)
    (hk : ∀ rest, k rest caps ≠ none) :
    ∃ I R, s = I ++ R ∧ I ≠ [] ∧ (∀ c ∈ I, c ∉ cs) ∧ Stops cs R ∧ k R caps = some r := by
  obtain ⟨I, R, hs, hI, hR⟩ := split_at_stop cs s
  subst hs
  have hne : I ≠ [] := by
    rintro rfl
    cases R with
    | nil => simp [Regex.run] at h
    | cons c t =>
      have hc : c ∈ cs := hR c (by simp)
      simp [Regex.run, hc] at h
  rw [run_plusNot_append caps k hne hI hR (hk R)] at h
  exact ⟨I, R, rfl, hne, hI, hR, h⟩

/-- A match of a greedy `[^cs]*` in front of a continuation that rejects every
string starting outside `cs` takes the whole run outside `cs`. -/
theorem starNotRun_some_split {β : Type} {cs s : Str} {k : Str → Option β} {r : β}
    (h : starNotRun cs s k = some r) (hk : ∀ c t, c ∉ cs → k (c :: t) = none) :
    ∃ I R, s = I ++ R ∧ (∀ c ∈ I, c ∉ cs) ∧ Stops cs R ∧ k R = some r := by
  obtain ⟨I, R, hs, hI, hR⟩ := split_at_stop cs s
  subst hs
  rw [starNotRun_append k hR I hI (Or.inr (by
    intro I1 I2 h12 h2
    cases I2 with
    | nil => exact absurd rfl h2
    | cons c t =>
      exact hk c (t ++ R) (hI c (by simp [h12]))))] at h
  exact ⟨I, R, rfl, hI, hR, h⟩

/-- Every match of the fallback pattern has the shape domain, `/`, a segment
without `/`, `/`, and the captured run without `/`, `?`, `#`. -/
theorem matchHere_alternative_some {s : Str} {caps : Captures}
    (h : Regex.matchHere alternativeRegex s = some caps) :
    ∃ D S I R, s = D ++ '/' :: (S ++ '/' :: (I ++ R))
      ∧ (D = feishuCn ∨ D = larksuiteCom) ∧ (∀ c ∈ S, c ≠ '/') ∧ I ≠ []
      ∧ (∀ c ∈ I, c ≠ '/' ∧ c ≠ '?' ∧ c ≠ '#')
      ∧ (∀ c ∈ R.head?, c = '/' ∨ c = '?' ∨ c = '#') ∧ caps = [(1, I)] := by
  rw [matchHere_eq, alternativeRegex_eq, run_seq] at h
  have h1 : ∃ D rest1, s = D ++ rest1 ∧ (D = feishuCn ∨ D = larksuiteCom)
      ∧ Regex.run (.seq (.lit ['/']) (.seq (.starNot ['/'])
        (.seq (.lit ['/']) (.group 1 (.plusNot ['/', '?', '#']))))) rest1 [] accept
          = some caps := by
    rcases run_alt_some h with h | h
    · obtain ⟨rest1, hs, h⟩ := run_lit_some h
      exact ⟨feishuCn, rest1, hs, Or.inl rfl, h⟩
    · obtain ⟨rest1, hs, h⟩ := run_lit_some h
      exact ⟨larksuiteCom, rest1, hs, Or.inr rfl, h⟩
  obtain ⟨D, rest1, hs, hD, h2⟩ := h1
  clear h
  subst hs
  rw [run_seq] at h2
  obtain ⟨rest2, hs, h3⟩ := run_lit_some h2
  subst hs
  rw [run_seq, run_starNot] at h3
  obtain ⟨S, R1, hs, hS, _, h4⟩ := starNotRun_some_split h3 (by
    intro c t hc
    have hc1 : ¬ '/' = c := by
      intro hc2
      exact hc (by simp [← hc2])
    simp [run_seq, run_lit, dropLit, hc1])
  subst hs
  rw [run_seq] at h4
  obtain ⟨rest3, hs, h5⟩ := run_lit_some h4
  subst hs
  rw [run_group] at h5
  obtain ⟨I, R, hs, hI, hIc, hR, h6⟩ := run_plusNot_some_split h5 (by
    intro rest
    simp [accept])
  subst hs
  simp only [accept, consumed_append, Option.some.injEq] at h6
  refine ⟨D, S, I, R, by simp, hD, ?_, hI, ?_, ?_, h6.symm⟩
  · intro c hc
    have := hS c hc
    simpa using this
  · intro c hc
    have := hIc c hc
    simpa using this
  · intro c hc
    have := hR c hc
    simpa using this

/-- C8, amended. For every input that contains a recognized domain and on which
the typed pattern does not match: if the fallback pattern matches, the input is
`P + D + "/" + S + "/" + I + R`, where the fallback pattern matches at no start
position inside `P`, `D` is `feishu.cn` or `larksuite.com`, `S` has no `/`, `I`
is non-empty without `/`, `?`, `#`, and `R` is empty or starts with one of these,
and the extractor yields `docType = "unknown"` and `extractedDocId = I`, the
second path segment after that domain; and every such way of writing the input
gives the segment `I` the extractor yields. -/
theorem extract_fallback_second_segment (docId : Str)
    (hdom : includes docId feishuCn = true ∨ includes docId larksuiteCom = true)
    (hno : Regex.exec urlRegex docId = none) :
    (Regex.exec alternativeRegex docId ≠ none →
        ∃ P D S I R, docId = P ++ (D ++ ['/'] ++ S ++ ['/'] ++ I ++ R)
          ∧ noMatchBefore alternativeRegex P (D ++ ['/'] ++ S ++ ['/'] ++ I ++ R) = true
          ∧ (D = feishuCn ∨ D = larksuiteCom) ∧ (∀ c ∈ S, c ≠ '/') ∧ I ≠ []
          ∧ (∀ c ∈ I, c ≠ '/' ∧ c ≠ '?' ∧ c ≠ '#')
          ∧ (∀ c ∈ R.head?, c = '/' ∨ c = '?' ∨ c = '#')
          ∧ extract docId = (unknownType, I))
      ∧ (∀ P D S I R, docId = P ++ (D ++ ['/'] ++ S ++ ['/'] ++ I ++ R) →
          noMatchBefore alternativeRegex P (D ++ ['/'] ++ S ++ ['/'] ++ I ++ R) = true →
          (D = feishuCn ∨ D = larksuiteCom) → (∀ c ∈ S, c ≠ '/') → I ≠ [] →
          (∀ c ∈ I, c ≠ '/' ∧ c ≠ '?' ∧ c ≠ '#') →
          (∀ c ∈ R.head?, c = '/' ∨ c = '?' ∨ c = '#') →
          extract docId = (unknownType, I)) := by
  have hinc : (includes docId feishuCn || includes docId larksuiteCom) = true := by
    rcases hdom with h | h <;> simp [h]
  have hextract : ∀ I : Str, Regex.exec alternativeRegex docId = some [(1, I)] →
      extract docId = (unknownType, I) := by
    intro I hI
    unfold extract
    rw [hinc, hno, hI]
    simp [capture, List.lookup]
  have hshape : ∀ D S I R : Str,
      D ++ ['/'] ++ S ++ ['/'] ++ I ++ R = D ++ '/' :: (S ++ '/' :: (I ++ R)) := by
    intro D S I R
    simp
  constructor
  · intro hm
    cases hexec : Regex.exec alternativeRegex docId with
    | none => exact absurd hexec hm
    | some caps =>
      obtain ⟨P, rest, hdoc, hP, hrest⟩ := exec_some_leftmost alternativeRegex docId hexec
      obtain ⟨D, S, I, R, hs, hD, hS, hI, hIc, hR, hcaps⟩ := matchHere_alternative_some hrest
      subst hs hcaps
      exact ⟨P, D, S, I, R, by rw [hshape, hdoc], by rw [hshape, hP], hD, hS, hI, hIc, hR,
        hextract I hexec⟩
  · intro P D S I R hdoc hP hD hS hI hIc hR
    apply hextract
    rw [hshape] at hdoc hP
    rw [hdoc, exec_of_noMatchBefore alternativeRegex _ P hP]
    apply exec_of_matchHere
    rw [alternativeRegex_eq, matchHere_domain _ _ hD]
    exact run_alternative_tail hS hI hIc hR

/-- C8 amended, at `https://xx.feishu.cn/a/b/c`, where the extractor yields `b`,
and at `feishu.cn?x=feishu.cn/a/b`, where the fallback pattern matches at the
second occurrence of the domain and the extractor yields `b`. -/
theorem extract_fallback_second_segment_witness :
    extract threeSegmentUrl = (unknownType, "b".toList)
      ∧ extract laterOccurrenceUrl = (unknownType, "b".toList) :=
  ⟨(extract_fallback_second_segment threeSegmentUrl (Or.inl (by decide)) (by decide)).2
      "https://xx.".toList feishuCn "a".toList "b".toList "/c".toList
      (by decide) (by decide) (Or.inl rfl) (by decide) (by decide) (by decide) (by decide),
    (extract_fallback_second_segment laterOccurrenceUrl (Or.inl (by decide)) (by decide)).2
      "feishu.cn?x=".toList feishuCn "a".toList "b".toList []
      (by decide) (by decide) (Or.inl rfl) (by decide) (by decide) (by decide) (by decide)⟩

/-! ## The spreadsheet fetcher -/

theorem appendRows_eq : ∀ (values : List Row) (index : Nat) (content : Str),
    appendRows values index content
      = content ++ ((values.take (10 - index)).map rowLine).flatten
  | [], _, content => by simp [appendRows]
  | row :: rest, index, content => by
    rw [appendRows, appendRows_eq rest (index + 1)]
    by_cases h : index < 10
    · have h10 : 10 - index = (10 - (index + 1)) + 1 := by omega
      rw [if_pos h, h10, List.take_succ_cons]
      simp
    · have h10 : 10 - index = 0 := by omega
      have h11 : 10 - (index + 1) = 0 := by omega
      rw [if_neg h, h10, h11]
      simp

theorem cellText_eq_spec (cell : Option Cell) : cellText cell = specCellText cell := by
  cases cell with
  | none => rfl
  | some c =>
    cases h : c.text <;> simp [cellText, specCellText, h]

theorem intercalate_eq_spec : ∀ row : Row,
    List.intercalate ['\t'] (row.map cellText) = specRowText row
  | [] => rfl
  | [cell] => by simp [List.intercalate, specRowText, cellText_eq_spec]
  | cell :: next :: rest => by
    have ih := intercalate_eq_spec (next :: rest)
    simp only [List.intercalate, List.map_cons, List.intersperse_cons₂, List.flatten_cons,
      specRowText, cellText_eq_spec] at ih ⊢
    rw [ih]
    rfl

theorem rowLine_eq_spec : rowLine = specRowLine := by
  funext row
  simp only [rowLine, specRowLine, intercalate_eq_spec]

theorem sheetsLoop_eq (client : Client) (spreadsheetToken : Str) :
    ∀ (sheets : List Sheet) (calls : List Call) (content : Str),
      (∀ sheet ∈ sheets, ∃ r,
        client.valuesBatchGet spreadsheetToken (sheet.sheet_id ++ "!A1:Z100".toList) = .ok r) →
      sheetsLoop client spreadsheetToken sheets calls content
        = ⟨calls ++ sheets.map (fun sheet =>
              Call.valuesBatchGet spreadsheetToken (sheet.sheet_id ++ "!A1:Z100".toList)),
            .ok (content
              ++ ((sheets.filterMap (specSection client spreadsheetToken)).map renderSection).flatten)⟩
  | [], calls, content, _ => by simp [sheetsLoop]
  | sheet :: rest, calls, content, hv => by
    obtain ⟨r, hr⟩ := hv sheet (by simp)
    have hrest : ∀ sh ∈ rest, ∃ r,
        client.valuesBatchGet spreadsheetToken (sh.sheet_id ++ "!A1:Z100".toList) = .ok r :=
      fun sh hsh => hv sh (by simp [hsh])
    simp only [sheetsLoop, sheetRange, hr]
    by_cases hcode : r.code = 0
    · cases hvr : r.data.value_ranges with
      | none =>
        have hsec : specSection client spreadsheetToken sheet = none := by
          simp only [specSection, specSheetValues, hr, hcode, hvr, if_true, Option.map_none']
        simp only [hcode, if_true, hvr]
        rw [sheetsLoop_eq client spreadsheetToken rest _ _ hrest]
        simp [List.filterMap_cons, hsec]
      | some value_ranges =>
        simp only [hcode, if_true, hvr]
        rw [sheetsLoop_eq client spreadsheetToken rest _ _ hrest]
        cases value_ranges with
        | nil =>
          have hsec : specSection client spreadsheetToken sheet = some ⟨sheet.title, []⟩ := by
            simp only [specSection, specSheetValues, hr, hcode, hvr, if_true, Option.map_some',
              List.take_nil, List.map_nil]
          simp [List.filterMap_cons, hsec, firstValues, appendRows, renderSection]
        | cons first others =>
          cases hfirst : first.values with
          | none =>
            have hsec : specSection client spreadsheetToken sheet = some ⟨sheet.title, []⟩ := by
              simp only [specSection, specSheetValues, hr, hcode, hvr, if_true, hfirst,
                Option.getD_none, Option.map_some', List.take_nil, List.map_nil]
            simp [List.filterMap_cons, hsec, firstValues, hfirst, appendRows, renderSection]
          | some values =>
            have hsec : specSection client spreadsheetToken sheet
                = some ⟨sheet.title, (values.take 10).map specRowLine⟩ := by
              simp only [specSection, specSheetValues, hr, hcode, hvr, if_true, hfirst,
                Option.getD_some, Option.map_some']
            simp [List.filterMap_cons, hsec, firstValues, hfirst, appendRows_eq,
              rowLine_eq_spec, renderSection]
    · have hsec : specSection client spreadsheetToken sheet = none := by
        simp only [specSection, specSheetValues, hr, hcode, if_false, Option.map_none']
      simp only [hcode, if_false]
      rw [sheetsLoop_eq client spreadsheetToken rest _ _ hrest]
      simp [List.filterMap_cons, hsec]

theorem length_filterMap_of_isSome {α β : Type} (f : α → Option β) :
    ∀ l : List α, (∀ x ∈ l, ∃ y, f x = some y) → (l.filterMap f).length = l.length
  | [], _ => rfl
  | x :: l, h => by
    obtain ⟨y, hy⟩ := h x (by simp)
    rw [List.filterMap_cons_some hy, List.length_cons, List.length_cons,
      length_filterMap_of_isSome f l (fun z hz => h z (by simp [hz]))]

/-- The run of `getSheets` on a workbook whose calls all return. -/
theorem getSheets_eq (client : Client) (spreadsheetToken : Str)
    (sheetsResponse : Response SheetsData) (sheets : List Sheet)
    (hq : client.sheetQuery spreadsheetToken = .ok sheetsResponse)
    (hcode : sheetsResponse.code = 0)
    (hs : sheetsResponse.data.sheets.getD [] = sheets)
    (hv : ∀ sheet ∈ sheets.take 3, ∃ r,
      client.valuesBatchGet spreadsheetToken (sheet.sheet_id ++ "!A1:Z100".toList) = .ok r) :
    getSheets client spreadsheetToken
      = ⟨Call.sheetQuery spreadsheetToken
          :: (sheets.take 3).map (fun sheet =>
            Call.valuesBatchGet spreadsheetToken (sheet.sheet_id ++ "!A1:Z100".toList)),
        .ok ("表格内容：\n\n".toList
          ++ ((specSections client spreadsheetToken sheets).map renderSection).flatten)⟩ := by
  unfold getSheets
  simp only [hq, hcode, ne_eq, not_true_eq_false, if_false, hs]
  rw [sheetsLoop_eq client spreadsheetToken _ _ _ hv]
  simp [rethrow, specSections]

/-- C5. When the listing call returns the workbook (code 0) and the cell-range
calls return, `getSheets` issues, after the listing call, exactly one
cell-range call for each of the first `min 3 n` sheets, in listing order, each
for the range `<sheet_id>!A1:Z100` of its sheet; its text is the header followed
by the sections of those sheets, at most 3, each made of the line
`工作表: <title>`, the first `min 10 r` rows of the sheet in order, each as its
cell texts separated by tabs and ended by a line break, and an empty line; with
at least 3 sheets of at least 10 rows the text is the header and exactly 3
sections of exactly 10 rows. -/
theorem getSheets_bounded (client : Client) (spreadsheetToken : Str)
    (sheetsResponse : Response SheetsData) (sheets : List Sheet)
    (hq : client.sheetQuery spreadsheetToken = .ok sheetsResponse)
    (hcode : sheetsResponse.code = 0)
    (hs : sheetsResponse.data.sheets.getD [] = sheets)
    (hv : ∀ sheet ∈ sheets.take 3, ∃ r,
      client.valuesBatchGet spreadsheetToken (sheet.sheet_id ++ "!A1:Z100".toList) = .ok r) :
    (getSheets client spreadsheetToken).calls
        = Call.sheetQuery spreadsheetToken
          :: (sheets.take 3).map (fun sheet =>
            Call.valuesBatchGet spreadsheetToken (sheet.sheet_id ++ "!A1:Z100".toList))
      ∧ (getSheets client spreadsheetToken).calls.length = 1 + min 3 sheets.length
      ∧ (getSheets client spreadsheetToken).result
        = .ok ("表格内容：\n\n".toList
          ++ ((specSections client spreadsheetToken sheets).map
              (fun sec => "工作表: ".toList ++ sec.title ++ ['\n'] ++ sec.rowLines.flatten
                ++ ['\n'])).flatten)
      ∧ (specSections client spreadsheetToken sheets).length ≤ min 3 sheets.length
      ∧ (∀ sec ∈ specSections client spreadsheetToken sheets,
          ∃ sheet ∈ sheets.take 3, ∃ values,
            specSheetValues client spreadsheetToken sheet = some values
              ∧ sec = ⟨sheet.title, (values.take 10).map specRowLine⟩
              ∧ sec.rowLines.length = min 10 values.length)
      ∧ (3 ≤ sheets.length →
          (∀ sheet ∈ sheets.take 3, ∃ values,
            specSheetValues client spreadsheetToken sheet = some values ∧ 10 ≤ values.length) →
          ∃ s1 s2 s3 : SheetSection,
            (getSheets client spreadsheetToken).result
                = .ok ("表格内容：\n\n".toList
                  ++ ("工作表: ".toList ++ s1.title ++ ['\n'] ++ s1.rowLines.flatten ++ ['\n'])
                  ++ ("工作表: ".toList ++ s2.title ++ ['\n'] ++ s2.rowLines.flatten ++ ['\n'])
                  ++ ("工作表: ".toList ++ s3.title ++ ['\n'] ++ s3.rowLines.flatten ++ ['\n']))
              ∧ specSections client spreadsheetToken sheets = [s1, s2, s3]
              ∧ s1.rowLines.length = 10 ∧ s2.rowLines.length = 10 ∧ s3.rowLines.length = 10) := by
  have hrun := getSheets_eq client spreadsheetToken sheetsResponse sheets hq hcode hs hv
  have hresult : (getSheets client spreadsheetToken).result
      = .ok ("表格内容：\n\n".toList
        ++ ((specSections client spreadsheetToken sheets).map
            (fun sec => "工作表: ".toList ++ sec.title ++ ['\n'] ++ sec.rowLines.flatten
              ++ ['\n'])).flatten) := by
    rw [hrun]
    rfl
  have hmem : ∀ sec ∈ specSections client spreadsheetToken sheets,
      ∃ sheet ∈ sheets.take 3, ∃ values,
        specSheetValues client spreadsheetToken sheet = some values
          ∧ sec = ⟨sheet.title, (values.take 10).map specRowLine⟩
          ∧ sec.rowLines.length = min 10 values.length := by
    intro sec hsec
    simp only [specSections, List.mem_filterMap] at hsec
    obtain ⟨sheet, hsheet, hsome⟩ := hsec
    cases hvalues : specSheetValues client spreadsheetToken sheet with
    | none => simp [specSection, hvalues] at hsome
    | some values =>
      simp only [specSection, hvalues, Option.map_some', Option.some.injEq] at hsome
      subst hsome
      exact ⟨sheet, hsheet, values, hvalues, rfl, by simp⟩
  refine ⟨by rw [hrun], ?_, hresult, ?_, hmem, ?_⟩
  · rw [hrun]
    simp only [List.length_cons, List.length_map, List.length_take]
    omega
  · calc (specSections client spreadsheetToken sheets).length
        ≤ (sheets.take 3).length := List.length_filterMap_le _ _
      _ = min 3 sheets.length := by simp
  · intro h3 hall
    have hlen : (specSections client spreadsheetToken sheets).length = 3 := by
      have hlen1 : (specSections client spreadsheetToken sheets).length
          = (sheets.take 3).length :=
        length_filterMap_of_isSome _ _ (fun sheet hsheet => by
          obtain ⟨values, hvalues, _⟩ := hall sheet hsheet
          exact ⟨⟨sheet.title, (values.take 10).map specRowLine⟩, by
            rw [specSection, hvalues]
            rfl⟩)
      rw [hlen1, List.length_take]
      omega
    have hrows : ∀ sec ∈ specSections client spreadsheetToken sheets,
        sec.rowLines.length = 10 := by
      intro sec hsec
      obtain ⟨sheet, hsheet, values, hvalues, _, hlen2⟩ := hmem sec hsec
      obtain ⟨values1, hvalues1, h10⟩ := hall sheet hsheet
      rw [hvalues] at hvalues1
      cases hvalues1
      rw [hlen2]
      omega
    obtain ⟨s1, s2, s3, h123⟩ := List.length_eq_three.mp hlen
    refine ⟨s1, s2, s3, ?_, h123, hrows s1 (by simp [h123]), hrows s2 (by simp [h123]),
      hrows s3 (by simp [h123])⟩
    rw [hresult, h123]
    simp

/-- C5, at the 50-sheet, 500-row workbook: `getSheets` issues the listing call
and the cell-range calls for the first three sheets only, and its text is the
header and exactly 3 sections of exactly 10 rows. -/
theorem getSheets_bounded_witness :
    bigWorkbookSheets.length = 50 ∧ bigWorkbookRows.length = 500
      ∧ (getSheets bigWorkbookClient "tok".toList).calls
        = [Call.sheetQuery "tok".toList,
            Call.valuesBatchGet "tok".toList "s0!A1:Z100".toList,
            Call.valuesBatchGet "tok".toList "s1!A1:Z100".toList,
            Call.valuesBatchGet "tok".toList "s2!A1:Z100".toList]
      ∧ (getSheets bigWorkbookClient "tok".toList).result
        = .ok ("表格内容：\n\n".toList
          ++ "工作表: Sheet0\n".toList ++ (List.replicate 10 "x\t\n".toList).flatten ++ ['\n']
          ++ "工作表: Sheet1\n".toList ++ (List.replicate 10 "x\t\n".toList).flatten ++ ['\n']
          ++ "工作表: Sheet2\n".toList ++ (List.replicate 10 "x\t\n".toList).flatten ++ ['\n']) := by
  have h := getSheets_bounded bigWorkbookClient "tok".toList
    ⟨0, "success".toList, ⟨some bigWorkbookSheets⟩⟩ bigWorkbookSheets rfl rfl rfl
    (fun _ _ => ⟨_, rfl⟩)
  refine ⟨by simp [bigWorkbookSheets], by rw [bigWorkbookRows, List.length_replicate], ?_, ?_⟩
  · rw [h.1]
    decide
  · rw [h.2.2.1]
    decide

/-! ## The dispatcher -/

/-- C4. The dispatcher maps `doc` and `docx` to `getDocx`, `sheet` and `sheets`
to `getSheets`, `slides` to `getSlides`, `bitable` to `getBitable`, `file` to
`getFile`, `mindnote` to the placeholder text without a remote call; on any other
tag it issues no call and fails with an error whose message contains the tag and
the list of the supported tags. -/
theorem getContentByType_total (client : Client) (token docType : Str)
    (h : docType ∉ supportedTypes) :
    getContentByType client "doc".toList token = getDocx client token
      ∧ getContentByType client "docx".toList token = getDocx client token
      ∧ getContentByType client "sheet".toList token = getSheets client token
      ∧ getContentByType client "sheets".toList token = getSheets client token
      ∧ getContentByType client "slides".toList token = getSlides client token
      ∧ getContentByType client "bitable".toList token = getBitable client token
      ∧ getContentByType client "file".toList token = getFile client token
      ∧ getContentByType client "mindnote".toList token = ⟨[], .ok (mindnoteText token)⟩
      ∧ getContentByType client docType token
          = ⟨[], .error (newError ("不支持的文档类型: ".toList ++ docType
              ++ "。支持的类型: doc, docx, sheet, sheets, slides, bitable, file, mindnote".toList))⟩
      ∧ docType <:+: "不支持的文档类型: ".toList ++ docType
              ++ "。支持的类型: doc, docx, sheet, sheets, slides, bitable, file, mindnote".toList
      ∧ "doc, docx, sheet, sheets, slides, bitable, file, mindnote".toList
          <:+: "不支持的文档类型: ".toList ++ docType
              ++ "。支持的类型: doc, docx, sheet, sheets, slides, bitable, file, mindnote".toList := by
  simp only [supportedTypes, List.mem_cons, List.mem_singleton, List.not_mem_nil, or_false,
    not_or] at h
  obtain ⟨h1, h2, h3, h4, h5, h6, h7, h8⟩ := h
  refine ⟨rfl, rfl, rfl, rfl, rfl, rfl, rfl, rfl, ?_, ?_, ?_⟩
  · simp only [getContentByType, h1, h2, h3, h4, h5, h6, h7, h8, or_self, if_false,
      unsupportedMessage]
  · exact ⟨"不支持的文档类型: ".toList,
      "。支持的类型: doc, docx, sheet, sheets, slides, bitable, file, mindnote".toList, rfl⟩
  · exact ⟨"不支持的文档类型: ".toList ++ docType ++ "。支持的类型: ".toList, [], by
      simp only [List.append_nil, List.append_assoc]
      rfl⟩

/-- C4, at the tag `wiki`, which the dispatcher has no branch for. -/
theorem getContentByType_total_witness :
    getContentByType (constClient 0 []) "wiki".toList "tok".toList
      = ⟨[], .error (newError ("不支持的文档类型: ".toList ++ "wiki".toList
          ++ "。支持的类型: doc, docx, sheet, sheets, slides, bitable, file, mindnote".toList))⟩ :=
  (getContentByType_total (constClient 0 []) "tok".toList "wiki".toList (by decide)).2.2.2.2.2.2.2.2.1

/-! ## The handler without configuration -/

/-- C6. When `FEISHU_APP_ID` or `FEISHU_APP_SECRET` is unset or empty,
`getFeishuConfig` returns `null`, no service is constructed, and the handler
returns the fixed text on every `docId` and issues no remote call. -/
theorem getFeishuDoc_unconfigured (newClient : Str → Str → Client) (env : Env) (docId : Str)
    (h : env.FEISHU_APP_ID = none ∨ env.FEISHU_APP_ID = some []
      ∨ env.FEISHU_APP_SECRET = none ∨ env.FEISHU_APP_SECRET = some []) :
    getFeishuConfig env = none
      ∧ initFeishuService newClient env = none
      ∧ getFeishuDoc (initFeishuService newClient env) docId
        = ⟨[], .ok ⟨[⟨"text".toList,
            "飞书服务未配置：请设置 FEISHU_APP_ID 和 FEISHU_APP_SECRET 环境变量".toList⟩]⟩⟩ := by
  have hcfg : getFeishuConfig env = none := by
    unfold getFeishuConfig
    rcases h with h | h | h | h <;> simp [h, isFalsy]
  have hinit : initFeishuService newClient env = none := by
    simp [initFeishuService, hcfg]
  refine ⟨hcfg, hinit, ?_⟩
  rw [hinit]
  rfl

/-- C6, at `docId = "ABC123"` with both variables unset. -/
theorem getFeishuDoc_unconfigured_witness :
    getFeishuDoc (initFeishuService (fun _ _ => constClient 0 []) ⟨none, none⟩) "ABC123".toList
      = ⟨[], .ok ⟨[⟨"text".toList,
          "飞书服务未配置：请设置 FEISHU_APP_ID 和 FEISHU_APP_SECRET 环境变量".toList⟩]⟩⟩ :=
  (getFeishuDoc_unconfigured (fun _ _ => constClient 0 []) ⟨none, none⟩ "ABC123".toList
    (Or.inl rfl)).2.2

/-! ## Remote failures -/

/-- C1 fails at `docId = "https://xx.feishu.cn/docx/ABC123"` on a remote that
answers `rawContent` with a non-zero code: `getDocx` throws a plain `Error` with
the message `Failed to get doc from Feishu API: forbidden`, the `catch` block of
the handler reads `error.response.status` of an error that has no `response`,
and the handler rejects with that `TypeError` instead of returning a text. -/
theorem getFeishuDoc_rejects_on_service_error :
    fetchContent ⟨forbiddenClient⟩ "https://xx.feishu.cn/docx/ABC123".toList
        = ⟨[Call.rawContent "ABC123".toList],
          .error ⟨"Failed to get doc from Feishu API: forbidden".toList, none⟩⟩
      ∧ getFeishuDoc (some ⟨forbiddenClient⟩) "https://xx.feishu.cn/docx/ABC123".toList
        = ⟨[Call.rawContent "ABC123".toList],
          .error ⟨"Cannot read properties of undefined (reading \x27status\x27)".toList, none⟩⟩ := by
  decide

/-- Whenever the service call fails with an error that has no `response`, the
handler rejects with the `TypeError` of its `catch` block. -/
theorem getFeishuDoc_of_plain_error (feishuService : FeishuService) (docId : Str) (error : JsError)
    (h : (fetchContent feishuService docId).result = .error error)
    (hplain : error.response = none) :
    getFeishuDoc (some feishuService) docId
      = ⟨(fetchContent feishuService docId).calls, .error responseTypeError⟩ := by
  simp [getFeishuDoc, h, hplain]

/-- C7 fails on a remote that refuses the per-sheet `valuesBatchGet` call and the
`table.list` call with a non-zero code: `getSheets` and `getBitable` return a
text, without the refused part and without an error. -/
theorem secondary_failure_not_surfaced :
    secondaryRefusedClient.valuesBatchGet "tok".toList "s1!A1:Z100".toList
        = .ok ⟨1770032, "forbidden".toList, ⟨none⟩⟩
      ∧ getSheets secondaryRefusedClient "tok".toList
        = ⟨[Call.sheetQuery "tok".toList, Call.valuesBatchGet "tok".toList "s1!A1:Z100".toList],
          .ok "表格内容：\n\n".toList⟩
      ∧ secondaryRefusedClient.tableList "tok".toList = .ok ⟨1770032, "forbidden".toList, ⟨none⟩⟩
      ∧ getBitable secondaryRefusedClient "tok".toList
        = ⟨[Call.appGet "tok".toList, Call.tableList "tok".toList],
          .ok "多维表格: Base\n描述: 无描述\n\n".toList⟩ := by
  decide

/-- C7, amended. A non-zero code of the first remote call of a fetcher
(`rawContent`, `sheet.query`, `presentation.get`, `app.get`, `file.get`,
`getNode`) makes the fetcher fail, after that one call, with an error whose
message contains the remote `msg`.  A non-zero code of `table.list` or of a
per-sheet `valuesBatchGet` is skipped: `getBitable` returns the application text
without the table list, and `getSheets` returns its text without a section for
that sheet. -/
theorem primary_failure_surfaced (client : Client) (token : Str) (code : Int) (msg : Str)
    (hcode : code ≠ 0) :
    (∀ data, client.rawContent token = .ok ⟨code, msg, data⟩ →
        ∃ error, getDocx client token = ⟨[.rawContent token], .error error⟩
          ∧ error.message = "Failed to get doc from Feishu API: ".toList ++ msg
          ∧ msg <:+: error.message)
      ∧ (∀ data, client.sheetQuery token = .ok ⟨code, msg, data⟩ →
        ∃ error, getSheets client token = ⟨[.sheetQuery token], .error error⟩
          ∧ error.message
            = "Failed to get sheets content: ".toList ++ ("Failed to get sheets list: ".toList ++ msg)
          ∧ msg <:+: error.message)
      ∧ (∀ data, client.presentationGet token = .ok ⟨code, msg, data⟩ →
        ∃ error, getSlides client token = ⟨[.presentationGet token], .error error⟩
          ∧ error.message
            = "Failed to get slides content: ".toList ++ ("Failed to get slides: ".toList ++ msg)
          ∧ msg <:+: error.message)
      ∧ (∀ data, client.appGet token = .ok ⟨code, msg, data⟩ →
        ∃ error, getBitable client token = ⟨[.appGet token], .error error⟩
          ∧ error.message
            = "Failed to get bitable content: ".toList ++ ("Failed to get bitable: ".toList ++ msg)
          ∧ msg <:+: error.message)
      ∧ (∀ data, client.fileGet token = .ok ⟨code, msg, data⟩ →
        ∃ error, getFile client token = ⟨[.fileGet token], .error error⟩
          ∧ error.message
            = "Failed to get file content: ".toList ++ ("Failed to get file info: ".toList ++ msg)
          ∧ msg <:+: error.message)
      ∧ (∀ data, client.getNode token = .ok ⟨code, msg, data⟩ →
        ∃ error, getNode client token = ⟨[.getNode token], .error error⟩
          ∧ error.message = "Failed to get node from Feishu API: ".toList ++ msg
          ∧ msg <:+: error.message)
      ∧ (∀ msg0 app data, client.appGet token = .ok ⟨0, msg0, ⟨app⟩⟩ →
        client.tableList token = .ok ⟨code, msg, data⟩ →
        getBitable client token = ⟨[.appGet token, .tableList token],
          .ok ("多维表格: ".toList ++ app.name ++ "\n描述: ".toList
            ++ descriptionText app.description ++ "\n\n".toList)⟩)
      ∧ (∀ sheetsResponse, client.sheetQuery token = .ok sheetsResponse →
        sheetsResponse.code = 0 →
        (∀ sheet ∈ (sheetsResponse.data.sheets.getD []).take 3,
          ∃ r, client.valuesBatchGet token (sheetRange sheet) = .ok r) →
        (getSheets client token).result
            = .ok ("表格内容：\n\n".toList
              ++ ((specSections client token (sheetsResponse.data.sheets.getD [])).map
                renderSection).flatten)
          ∧ ∀ sheet data, client.valuesBatchGet token (sheetRange sheet) = .ok ⟨code, msg, data⟩ →
              specSection client token sheet = none) := by
  refine ⟨?_, ?_, ?_, ?_, ?_, ?_, ?_, ?_⟩
  · intro data h
    refine ⟨newError ("Failed to get doc from Feishu API: ".toList ++ msg), ?_, rfl, ?_⟩
    · simp only [getDocx, h, hcode, ne_eq, not_false_eq_true, if_true]
    · exact (List.suffix_append _ msg).isInfix
  · intro data h
    refine ⟨newError ("Failed to get sheets content: ".toList
      ++ ("Failed to get sheets list: ".toList ++ msg)), ?_, rfl, ?_⟩
    · simp only [getSheets, h, hcode, ne_eq, not_false_eq_true, if_true, rethrow, newError]
    · exact ((List.suffix_append _ msg).trans (List.suffix_append _ _)).isInfix
  · intro data h
    refine ⟨newError ("Failed to get slides content: ".toList
      ++ ("Failed to get slides: ".toList ++ msg)), ?_, rfl, ?_⟩
    · simp only [getSlides, h, hcode, ne_eq, not_false_eq_true, if_true, rethrow, newError]
    · exact ((List.suffix_append _ msg).trans (List.suffix_append _ _)).isInfix
  · intro data h
    refine ⟨newError ("Failed to get bitable content: ".toList
      ++ ("Failed to get bitable: ".toList ++ msg)), ?_, rfl, ?_⟩
    · simp only [getBitable, h, hcode, ne_eq, not_false_eq_true, if_true, rethrow, newError]
    · exact ((List.suffix_append _ msg).trans (List.suffix_append _ _)).isInfix
  · intro data h
    refine ⟨newError ("Failed to get file content: ".toList
      ++ ("Failed to get file info: ".toList ++ msg)), ?_, rfl, ?_⟩
    · simp only [getFile, h, hcode, ne_eq, not_false_eq_true, if_true, rethrow, newError]
    · exact ((List.suffix_append _ msg).trans (List.suffix_append _ _)).isInfix
  · intro data h
    refine ⟨newError ("Failed to get node from Feishu API: ".toList ++ msg), ?_, rfl, ?_⟩
    · simp only [getNode, h, hcode, ne_eq, not_false_eq_true, if_true]
    · exact (List.suffix_append _ msg).isInfix
  · intro msg0 app data happ htab
    simp only [getBitable, happ, htab, hcode, ne_eq, not_true_eq_false, if_false, rethrow]
  · intro sheetsResponse hq h0 hv
    constructor
    · rw [getSheets_eq client token sheetsResponse _ hq h0 rfl hv]
    · intro sheet data hr
      simp only [sheetRange] at hr
      simp only [specSection, specSheetValues, hr, hcode, if_false, Option.map_none']

/-- C7 amended, at a remote that refuses every call: `getDocx` fails with a
message that contains `forbidden`. -/
theorem primary_failure_surfaced_witness :
    ∃ error, getDocx forbiddenClient "tok".toList
        = ⟨[.rawContent "tok".toList], .error error⟩
      ∧ "forbidden".toList <:+: error.message :=
  (primary_failure_surfaced forbiddenClient "tok".toList 1770032 "forbidden".toList
    (by decide)).1 ⟨[]⟩ rfl |>.imp fun _ h => ⟨h.1, h.2.2⟩

/-! ## Routing in the handler and the wiki node resolver -/

theorem rethrow_calls {α : Type} (pre : Str) (r : Run α) : (rethrow pre r).calls = r.calls := by
  unfold rethrow
  split <;> rfl

theorem getDocx_calls (client : Client) (token : Str) :
    (getDocx client token).calls = [.rawContent token] := by
  unfold getDocx
  split
  · rfl
  · split <;> rfl

theorem getSlides_calls (client : Client) (token : Str) :
    (getSlides client token).calls = [.presentationGet token] := by
  unfold getSlides
  rw [rethrow_calls]
  split
  · rfl
  · split <;> rfl

theorem getFile_calls (client : Client) (token : Str) :
    (getFile client token).calls = [.fileGet token] := by
  unfold getFile
  rw [rethrow_calls]
  split
  · rfl
  · split <;> rfl

theorem getBitable_calls (client : Client) (token : Str) :
    (getBitable client token).calls = [.appGet token]
      ∨ (getBitable client token).calls = [.appGet token, .tableList token] := by
  unfold getBitable
  rw [rethrow_calls]
  split
  · exact Or.inl rfl
  · split
    · exact Or.inl rfl
    · split
      · exact Or.inr rfl
      · split <;> exact Or.inr rfl

theorem sheetsLoop_calls (client : Client) (token : Str) :
    ∀ (sheets : List Sheet) (calls : List Call) (content : Str),
      ∃ ranges : List Str,
        (sheetsLoop client token sheets calls content).calls
          = calls ++ ranges.map (Call.valuesBatchGet token)
  | [], calls, content => ⟨[], by simp [sheetsLoop]⟩
  | sheet :: rest, calls, content => by
    simp only [sheetsLoop]
    split
    · exact ⟨[sheetRange sheet], rfl⟩
    · have step : ∀ content1 : Str, ∃ ranges : List Str,
          (sheetsLoop client token rest (calls ++ [Call.valuesBatchGet token (sheetRange sheet)])
            content1).calls = calls ++ ranges.map (Call.valuesBatchGet token) := by
        intro content1
        obtain ⟨ranges, h⟩ := sheetsLoop_calls client token rest
          (calls ++ [Call.valuesBatchGet token (sheetRange sheet)]) content1
        exact ⟨sheetRange sheet :: ranges, by simp [h]⟩
      split
      · split
        · exact step _
        · exact step _
      · exact step _

theorem getSheets_calls (client : Client) (token : Str) :
    ∃ ranges : List Str,
      (getSheets client token).calls = .sheetQuery token :: ranges.map (Call.valuesBatchGet token) := by
  unfold getSheets
  rw [rethrow_calls]
  split
  · exact ⟨[], rfl⟩
  · split
    · exact ⟨[], rfl⟩
    · obtain ⟨ranges, h⟩ := sheetsLoop_calls client token _ [.sheetQuery token] "表格内容：\n\n".toList
      exact ⟨ranges, h⟩

/-- Neither the dispatcher nor a fetcher calls the node-resolution endpoint. -/
theorem getContentByType_no_node_call (client : Client) (docType token : Str) :
    ∀ call ∈ (getContentByType client docType token).calls, isNodeCall call = false := by
  unfold getContentByType
  split
  · rw [getDocx_calls]
    simp [isNodeCall]
  split
  · obtain ⟨ranges, h⟩ := getSheets_calls client token
    rw [h]
    intro call hcall
    simp only [List.mem_cons, List.mem_map] at hcall
    rcases hcall with rfl | ⟨range, _, rfl⟩ <;> rfl
  split
  · rw [getSlides_calls]
    simp [isNodeCall]
  split
  · rcases getBitable_calls client token with h | h <;> rw [h] <;> simp [isNodeCall]
  split
  · rw [getFile_calls]
    simp [isNodeCall]
  split
  · simp
  · simp

/-- The routing of a type tag that is one of the nine tags of the typed pattern
or `unknown`. -/
theorem routing_of_type (client : Client) (docType token : Str)
    (h : docType ∈ urlTypes ∨ docType = unknownType) :
    (docType ∈ directTypes
        ∧ (if docType ≠ unknownType ∧ docType ≠ wikiType then
            getContentByType client docType token
          else getNode client token) = getContentByType client docType token
        ∧ getContentByType client docType token
            ∈ [getDocx client token, getSheets client token, getSlides client token,
                getBitable client token, getFile client token, ⟨[], .ok (mindnoteText token)⟩]
        ∧ getContentByType client docType token
            ≠ ⟨[], .error (newError (unsupportedMessage docType))⟩)
      ∨ ((docType = unknownType ∨ docType = wikiType)
        ∧ (if docType ≠ unknownType ∧ docType ≠ wikiType then
            getContentByType client docType token
          else getNode client token) = getNode client token) := by
  have hdocx : ∀ r : Except JsError Str, getDocx client token ≠ ⟨[], r⟩ := by
    intro r hr
    have := congrArg Run.calls hr
    rw [getDocx_calls] at this
    cases this
  have hsheets : ∀ r : Except JsError Str, getSheets client token ≠ ⟨[], r⟩ := by
    intro r hr
    have := congrArg Run.calls hr
    obtain ⟨ranges, h⟩ := getSheets_calls client token
    rw [h] at this
    cases this
  have hslides : ∀ r : Except JsError Str, getSlides client token ≠ ⟨[], r⟩ := by
    intro r hr
    have := congrArg Run.calls hr
    rw [getSlides_calls] at this
    cases this
  have hbitable : ∀ r : Except JsError Str, getBitable client token ≠ ⟨[], r⟩ := by
    intro r hr
    have := congrArg Run.calls hr
    rcases getBitable_calls client token with h | h <;> rw [h] at this <;> cases this
  have hfile : ∀ r : Except JsError Str, getFile client token ≠ ⟨[], r⟩ := by
    intro r hr
    have := congrArg Run.calls hr
    rw [getFile_calls] at this
    cases this
  rcases h with h | h
  · simp only [urlTypes, List.mem_cons, List.mem_singleton, List.not_mem_nil, or_false] at h
    rcases h with rfl | rfl | rfl | rfl | rfl | rfl | rfl | rfl | rfl
    · exact Or.inl ⟨by decide, if_pos (by decide), by
        rw [show getContentByType client "doc".toList token = getDocx client token from rfl]
        simp, hdocx _⟩
    · exact Or.inl ⟨by decide, if_pos (by decide), by
        rw [show getContentByType client "docx".toList token = getDocx client token from rfl]
        simp, hdocx _⟩
    · exact Or.inl ⟨by decide, if_pos (by decide), by
        rw [show getContentByType client "sheet".toList token = getSheets client token from rfl]
        simp, hsheets _⟩
    · exact Or.inl ⟨by decide, if_pos (by decide), by
        rw [show getContentByType client "sheets".toList token = getSheets client token from rfl]
        simp, hsheets _⟩
    · exact Or.inl ⟨by decide, if_pos (by decide), by
        rw [show getContentByType client "mindnote".toList token
          = ⟨[], .ok (mindnoteText token)⟩ from rfl]
        simp, by
        rw [show getContentByType client "mindnote".toList token
          = ⟨[], .ok (mindnoteText token)⟩ from rfl]
        intro hr
        cases hr⟩
    · exact Or.inl ⟨by decide, if_pos (by decide), by
        rw [show getContentByType client "bitable".toList token = getBitable client token from rfl]
        simp, hbitable _⟩
    · exact Or.inl ⟨by decide, if_pos (by decide), by
        rw [show getContentByType client "file".toList token = getFile client token from rfl]
        simp, hfile _⟩
    · exact Or.inl ⟨by decide, if_pos (by decide), by
        rw [show getContentByType client "slides".toList token = getSlides client token from rfl]
        simp, hslides _⟩
    · exact Or.inr ⟨Or.inr rfl, if_neg (by decide)⟩
  · subst h
    exact Or.inr ⟨Or.inl rfl, if_neg (by decide)⟩

/-- C9. For every `docId` the handler either calls the dispatcher directly, with
a tag among doc, docx, sheet, sheets, mindnote, bitable, file, slides, each of
which the dispatcher maps to a fetcher or to the mindnote text and never to its
unsupported-type branch, or the tag is `unknown` or `wiki` and the handler calls
`getNode(extractedDocId)`. -/
theorem fetchContent_routing (feishuService : FeishuService) (docId : Str) :
    ((extract docId).1 ∈ directTypes
        ∧ fetchContent feishuService docId
            = getContentByType feishuService.client (extract docId).1 (extract docId).2
        ∧ getContentByType feishuService.client (extract docId).1 (extract docId).2
            ∈ [getDocx feishuService.client (extract docId).2,
                getSheets feishuService.client (extract docId).2,
                getSlides feishuService.client (extract docId).2,
                getBitable feishuService.client (extract docId).2,
                getFile feishuService.client (extract docId).2,
                ⟨[], .ok (mindnoteText (extract docId).2)⟩]
        ∧ getContentByType feishuService.client (extract docId).1 (extract docId).2
            ≠ ⟨[], .error (newError (unsupportedMessage (extract docId).1))⟩)
      ∨ (((extract docId).1 = unknownType ∨ (extract docId).1 = wikiType)
        ∧ fetchContent feishuService docId = getNode feishuService.client (extract docId).2) :=
  routing_of_type feishuService.client (extract docId).1 (extract docId).2
    (extract_type_mem docId)

/-- C10. `getNode` issues exactly one node-resolution call, with its token;
when the response has code 0 its calls after that one and its result are those
of `getContentByType(obj_type, obj_token)`; when the response has another code
it issues no further call and fails with an error whose message contains the
remote `msg`. -/
theorem getNode_resolves (client : Client) (token : Str) :
    (getNode client token).calls.filter isNodeCall = [.getNode token]
      ∧ (∃ rest, (getNode client token).calls = .getNode token :: rest)
      ∧ (∀ response, client.getNode token = .ok response → response.code = 0 →
          (getNode client token).calls
              = .getNode token
                :: (getContentByType client response.data.node.obj_type
                    response.data.node.obj_token).calls
            ∧ (getNode client token).result
              = (getContentByType client response.data.node.obj_type
                  response.data.node.obj_token).result)
      ∧ (∀ response, client.getNode token = .ok response → response.code ≠ 0 →
          getNode client token
              = ⟨[.getNode token],
                .error (newError ("Failed to get node from Feishu API: ".toList ++ response.msg))⟩
            ∧ response.msg <:+: "Failed to get node from Feishu API: ".toList ++ response.msg) := by
  refine ⟨?_, ?_, ?_, ?_⟩
  · unfold getNode
    split
    · rfl
    · split
      · rfl
      · simp only [List.filter_cons, show isNodeCall (Call.getNode token) = true from rfl,
          if_true, List.cons.injEq, true_and, List.filter_eq_nil_iff]
        intro call hcall
        simp [getContentByType_no_node_call client _ _ call hcall]
  · unfold getNode
    split
    · exact ⟨_, rfl⟩
    · split <;> exact ⟨_, rfl⟩
  · intro response h h0
    simp only [getNode, h, h0, ne_eq, not_true_eq_false, if_false, and_self]
  · intro response h h0
    exact ⟨by simp only [getNode, h, h0, ne_eq, not_false_eq_true, if_true],
      (List.suffix_append _ _).isInfix⟩

/-- C10, at a node that resolves to a docx document, and at a refused lookup. -/
theorem getNode_resolves_witness :
    getNode wikiClient "wikitok".toList
        = ⟨[.getNode "wikitok".toList, .rawContent "doxtok".toList], .ok "hello".toList⟩
      ∧ getNode forbiddenClient "wikitok".toList
        = ⟨[.getNode "wikitok".toList],
          .error (newError "Failed to get node from Feishu API: forbidden".toList)⟩ :=
  ⟨by decide,
   ((getNode_resolves forbiddenClient "wikitok".toList).2.2.2
      ⟨1770032, "forbidden".toList, ⟨⟨[], []⟩⟩⟩ rfl (by decide)).1⟩

/-! ## The mindnote branch and the key mask -/

/-- C11. For every token, `getContentByType("mindnote", token)` issues no remote
call and returns exactly the fixed message built around the token, which
carries the token unchanged. -/
theorem getContentByType_mindnote (client : Client) (token : Str) :
    getContentByType client "mindnote".toList token
        = ⟨[], .ok ("思维笔记文档 (ID: ".toList ++ token
            ++ ")\n暂不支持内容提取，请直接访问飞书查看。".toList)⟩
      ∧ (getContentByType client "mindnote".toList token).calls = []
      ∧ token <:+: "思维笔记文档 (ID: ".toList ++ token
            ++ ")\n暂不支持内容提取，请直接访问飞书查看。".toList :=
  ⟨rfl, rfl, ⟨"思维笔记文档 (ID: ".toList, ")\n暂不支持内容提取，请直接访问飞书查看。".toList, rfl⟩⟩

/-- The mask of a key of more than 8 units. -/
theorem maskApiKey_long {key : JsString} (h : 8 < key.length) :
    maskApiKey (some key)
      = key.take 4 ++ List.replicate (key.length - 8) asterisk ++ key.drop (key.length - 4) := by
  cases key with
  | nil => simp at h
  | cons u us =>
    have h8 : ¬ (u :: us).length ≤ 8 := by omega
    simp only [maskApiKey, h8, if_false]

/-- The mask of a non-empty key of at most 8 units. -/
theorem maskApiKey_short {key : JsString} (h0 : key ≠ []) (h : key.length ≤ 8) :
    maskApiKey (some key) = List.replicate key.length asterisk := by
  cases key with
  | nil => exact absurd rfl h0
  | cons u us => simp only [maskApiKey, h, if_true]

/-- C12. For a non-empty key, counted in UTF-16 code units as `key.length`
counts it, the mask has the length of the key; a key of at most 8 units gives
asterisks only; a key of more than 8 units gives its first 4 units, then
`length - 8` asterisks, then its last 4 units, so every position from 4 up to
`length - 4` holds an asterisk and the other positions hold the unit of the
key; an empty or missing key gives the text for an unset key. -/
theorem maskApiKey_mask (key : JsString) (h0 : key ≠ []) :
    (maskApiKey (some key)).length = key.length
      ∧ (key.length ≤ 8 →
          maskApiKey (some key) = List.replicate key.length asterisk
            ∧ ∀ u ∈ maskApiKey (some key), u = asterisk)
      ∧ (8 < key.length →
          maskApiKey (some key)
              = key.take 4 ++ List.replicate (key.length - 8) asterisk
                ++ key.drop (key.length - 4)
            ∧ (key.take 4).length = 4 ∧ (key.drop (key.length - 4)).length = 4
            ∧ key.drop (key.length - 4) = (key.reverse.take 4).reverse
            ∧ (∀ i, 4 ≤ i → i < key.length - 4 → (maskApiKey (some key))[i]? = some asterisk)
            ∧ (∀ i, i < 4 ∨ key.length - 4 ≤ i → (maskApiKey (some key))[i]? = key[i]?))
      ∧ maskApiKey none = toUtf16 "未设置".toList
      ∧ maskApiKey (some []) = toUtf16 "未设置".toList
      ∧ asterisk = (42 : CodeUnit) ∧ toUtf16 "*".toList = [asterisk]
      ∧ toUtf16 "未设置".toList = [26410, 35774, 32622] := by
  refine ⟨?_, ?_, ?_, rfl, rfl, rfl, by decide, by decide⟩
  · by_cases h : key.length ≤ 8
    · rw [maskApiKey_short h0 h, List.length_replicate]
    · rw [maskApiKey_long (by omega)]
      simp only [List.length_append, List.length_take, List.length_replicate, List.length_drop]
      omega
  · intro h
    rw [maskApiKey_short h0 h]
    exact ⟨rfl, fun c hc => List.eq_of_mem_replicate hc⟩
  · intro h
    rw [maskApiKey_long h]
    have htake : (key.take 4).length = 4 := by
      rw [List.length_take]
      omega
    have hdrop : (key.drop (key.length - 4)).length = 4 := by
      rw [List.length_drop]
      omega
    have hmid : (List.replicate (key.length - 8) asterisk).length = key.length - 8 :=
      List.length_replicate _ _
    refine ⟨rfl, htake, hdrop, ?_, ?_, ?_⟩
    · rw [List.reverse_take, List.reverse_reverse, List.length_reverse]
    · intro i h4 hi
      rw [List.getElem?_append_left (by rw [List.length_append, htake, hmid]; omega),
        List.getElem?_append_right (by rw [htake]; exact h4), htake,
        List.getElem?_replicate_of_lt (by omega)]
    · intro i hi
      rcases hi with hi | hi
      · rw [List.getElem?_append_left (by rw [List.length_append, htake, hmid]; omega),
          List.getElem?_append_left (by rw [htake]; exact hi), List.getElem?_take_of_lt hi]
      · rw [List.getElem?_append_right (by rw [List.length_append, htake, hmid]; omega),
          List.length_append, htake, hmid, List.getElem?_drop]
        congr 1
        omega

/-- C12, at the key `cli_a1b2c3d4e5f6`, whose mask is `cli_********e5f6`; at the
10-unit key `abcd` + U+1F600 + `efgh`, whose mask has two asterisks for the two
units of the emoji; and at the 10-unit key of five emoji, whose mask keeps the
first two and the last two emoji. -/
theorem maskApiKey_mask_witness :
    (maskApiKey (some (toUtf16 "cli_a1b2c3d4e5f6".toList))).length = 16
      ∧ maskApiKey (some (toUtf16 "cli_a1b2c3d4e5f6".toList)) = toUtf16 "cli_********e5f6".toList
      ∧ maskApiKey (some (toUtf16 "abc12345".toList)) = toUtf16 "********".toList
      ∧ utf16 grinningFace = [55357, 56832]
      ∧ (toUtf16 ("abcd".toList ++ [grinningFace] ++ "efgh".toList)).length = 10
      ∧ maskApiKey (some (toUtf16 ("abcd".toList ++ [grinningFace] ++ "efgh".toList)))
        = toUtf16 "abcd**efgh".toList
      ∧ maskApiKey (some (toUtf16 (List.replicate 5 grinningFace)))
        = toUtf16 ([grinningFace, grinningFace] ++ "**".toList ++ [grinningFace, grinningFace]) :=
  ⟨(maskApiKey_mask (toUtf16 "cli_a1b2c3d4e5f6".toList) (by decide)).1, by decide, by decide,
    by decide, by decide, by decide, by decide⟩

end WeatherServer
